import Mathlib

/-!
Verification of the SecSnail reliable file-transfer protocol
(packet codec, sender/receiver FSMs, socket receive path), as a shallow
embedding of the Rust sources in src/.

Conventions of the embedding:
* bytes are `Nat` values, with `% 256` masking applied exactly where u8
  arithmetic wraps in the source;
* fallible Rust functions returning io::Result become `Except String`;
* the file system is modelled by lists of bytes (the reader is the list of
  bytes not yet consumed, the writer is the list of bytes written so far);
* a Rust panic (`unreachable!` or `.unwrap()` of `None`) is the `trap`
  outcome of a transition.
-/

namespace Snail

set_option maxRecDepth 10000

/-- Decidable equality for Except values, needed to evaluate concrete
codec results. -/
instance {α β : Type} [DecidableEq α] [DecidableEq β] : DecidableEq (Except α β) := fun x y =>
  match x, y with
  | .error a, .error b =>
    if h : a = b then .isTrue (by rw [h]) else .isFalse (by intro hc; cases hc; exact h rfl)
  | .ok a, .ok b =>
    if h : a = b then .isTrue (by rw [h]) else .isFalse (by intro hc; cases hc; exact h rfl)
  | .error _, .ok _ => .isFalse (by intro hc; cases hc)
  | .ok _, .error _ => .isFalse (by intro hc; cases hc)

/-! ## CRC-8/I-432-1 (src/pck.rs, const CRC_8_I_423_1)

Parameters from the source: width 8, poly 0x07, init 0x00, refin false,
refout false, xorout 0x55, check 0xA1. The crc crate's bytewise algorithm:
xor the next message byte into the running value, then eight shift steps
with polynomial feedback, all in u8. -/

/-- crcStep performs one polynomial shift step of CRC-8 poly 0x07 in u8
arithmetic. -/
def crcStep (c : Nat) : Nat :=
  (if c &&& 128 = 0 then c <<< 1 else (c <<< 1) ^^^ 7) % 256

/-- crcUnstep is the inverse of `crcStep` on u8 values (used only to prove
injectivity of the step). -/
def crcUnstep (s : Nat) : Nat :=
  if s &&& 1 = 0 then s >>> 1 else ((s ^^^ 7) >>> 1) ||| 128

/-- crcStep8 applies the eight per-bit shift steps performed for each
message byte. -/
def crcStep8 (c : Nat) : Nat :=
  crcStep (crcStep (crcStep (crcStep (crcStep (crcStep (crcStep (crcStep c)))))))

/-- crcByte absorbs one message byte into the running CRC value. -/
def crcByte (c b : Nat) : Nat := crcStep8 ((c ^^^ b) % 256)

/-- crcFold runs the CRC over a message from a given initial value. -/
def crcFold (c : Nat) (msg : List Nat) : Nat := msg.foldl crcByte c

/-- crcDigest is the full CRC-8/I-432-1 digest: init 0x00, then xorout
0x55 (decimal 85). -/
def crcDigest (msg : List Nat) : Nat := crcFold 0 msg ^^^ 85

/-! ## Packet (src/pck.rs) -/

/-- MAX_PAYLOAD_SIZE from src/pck.rs (the total datagram size bound). -/
def MAX_PAYLOAD_SIZE : Nat := 512

/-- HEADER_LEN from src/pck.rs. -/
def HEADER_LEN : Nat := 4

/-- Flag mirrors `enum Flag` of src/pck.rs. -/
inductive Flag
  | SYN
  | ACK
  | FIN
  | FINACK
  | Data
deriving DecidableEq

/-- Flag.to_byte mirrors `Flag::to_byte` of src/pck.rs: bits 6-4 encode the
kind, bit 7 carries the sequence bit n. -/
def Flag.to_byte (f : Flag) (n : Bool) : Nat :=
  (match f with
    | .SYN => 16      -- 0b00010000
    | .ACK => 64      -- 0b01000000
    | .FIN => 32      -- 0b00100000
    | .FINACK => 96   -- 0b01100000
    | .Data => 0) |||
  (match n with
    | true => 128     -- 0b10000000
    | false => 0)

/-- Flag.byte_to_flag_and_n mirrors `Flag::byte_to_flag_and_n` of
src/pck.rs. The Rust match on the masked flag bits is written as an
if-chain over the same five literals; the reserved-nibble guard keeps the
source's redundant upper bound. -/
def Flag.byte_to_flag_and_n (b : Nat) : Except String (Flag × Bool) :=
  let fixed_zeros := b &&& 15
  if 0 < fixed_zeros ∧ fixed_zeros ≤ 15 then
    .error ("rcvpkt violates fixed zero convention")
  else
    let n : Bool := decide (b &&& 128 ≠ 0)
    let flag_bits := b &&& 112
    if flag_bits = 16 then .ok (.SYN, n)
    else if flag_bits = 64 then .ok (.ACK, n)
    else if flag_bits = 32 then .ok (.FIN, n)
    else if flag_bits = 96 then .ok (.FINACK, n)
    else if flag_bits = 0 then .ok (.Data, n)
    else .error ("unknown flag combination")

/-- parseRound is a boolean check used to establish, by finite
enumeration, that a successful `Flag.byte_to_flag_and_n` inverts
`Flag.to_byte`. -/
def parseRound (b : Nat) : Bool :=
  match Flag.byte_to_flag_and_n b with
  | .ok fn => Flag.to_byte fn.1 fn.2 == b
  | .error _ => true

/-- Packet mirrors `struct Packet` of src/pck.rs: sequence bit, kind,
stored checksum byte, payload length (u16), and the owned encoded buffer. -/
structure Packet where
  n : Bool
  flag : Flag
  checksum : Nat
  payload_len : Nat
  buf : List Nat
deriving DecidableEq

/-- Packet.max_pck_payload_size mirrors `Packet::max_pck_payload_size`
(512 - 4 = 508). -/
def Packet.max_pck_payload_size : Nat := MAX_PAYLOAD_SIZE - HEADER_LEN

/-- Packet.calc_checksum_crc_8_i_423_1 mirrors the source: the digest is
taken over the flag/sequence byte, the big-endian u16 payload length, and
the payload bytes. -/
def Packet.calc_checksum_crc_8_i_423_1 (f_and_n : Nat) (p_l : Nat) (p : List Nat) : Nat :=
  crcDigest (f_and_n :: (p_l / 256 % 256) :: (p_l % 256) :: p)

/-- Packet.newU is the ok-branch of `Packet::new`: build the encoded
buffer (flag byte, checksum, big-endian length, payload) and store the
fields. -/
def Packet.newU (n : Bool) (f : Flag) (p : List Nat) : Packet :=
  let fb := f.to_byte n
  let ck := Packet.calc_checksum_crc_8_i_423_1 fb p.length p
  { n := n, flag := f, checksum := ck, payload_len := p.length,
    buf := fb :: ck :: (p.length / 256 % 256) :: (p.length % 256) :: p }

/-- Packet.new mirrors `Packet::new` of src/pck.rs: reject payloads longer
than 508 bytes, otherwise build the packet and its encoded buffer. -/
def Packet.new (n : Bool) (f : Flag) (p : List Nat) : Except String Packet :=
  if p.length > Packet.max_pck_payload_size then
    .error ("Payload size exceeds MAX_PACKET_SIZE")
  else .ok (Packet.newU n f p)

/-- Packet.nU8 mirrors the getter `Packet::n` which widens the stored bool
to u8 (1 or 0). -/
def Packet.nU8 (p : Packet) : Nat :=
  match p.n with
  | true => 1
  | false => 0

/-- Packet.payload mirrors `Packet::payload`: the slice
buf[4 .. 4+payload_len]. -/
def Packet.payload (p : Packet) : List Nat :=
  (p.buf.drop HEADER_LEN).take p.payload_len

/-- Packet.is_SYN mirrors the source kind test. -/
def Packet.is_SYN (p : Packet) : Bool := p.flag == Flag.SYN

/-- Packet.is_not_SYN mirrors the source. -/
def Packet.is_not_SYN (p : Packet) : Bool := !p.is_SYN

/-- Packet.is_ACK mirrors the source kind test. -/
def Packet.is_ACK (p : Packet) : Bool := p.flag == Flag.ACK

/-- Packet.is_FIN mirrors the source kind test. -/
def Packet.is_FIN (p : Packet) : Bool := p.flag == Flag.FIN

/-- Packet.is_Data mirrors the source kind test. -/
def Packet.is_Data (p : Packet) : Bool := p.flag == Flag.Data

/-- Packet.is_FINACK mirrors the source kind test. -/
def Packet.is_FINACK (p : Packet) : Bool := p.flag == Flag.FINACK

/-- Packet.calc_checksum mirrors `Packet::calc_checksum`: recompute the
CRC from the packet's own fields (flag/sequence byte, length, payload). -/
def Packet.calc_checksum (p : Packet) : Nat :=
  Packet.calc_checksum_crc_8_i_423_1 (p.flag.to_byte p.n) p.payload_len p.payload

/-- Packet.notcorrupt mirrors the source: stored checksum equals the
recomputed one. -/
def Packet.notcorrupt (p : Packet) : Bool := p.checksum == p.calc_checksum

/-- Packet.corrupt mirrors the source. -/
def Packet.corrupt (p : Packet) : Bool := !p.notcorrupt

/-- Packet.encode mirrors `Packet::encode`: it returns the owned buffer
unchanged. -/
def Packet.encode (p : Packet) : List Nat := p.buf

/-- Packet.decode mirrors `Packet::decode` of src/pck.rs. Note that the
source's `buf.shrink_to(..)` shrinks capacity, not length, so the decoded
packet keeps the entire input buffer. The CRC is not checked. -/
def Packet.decode : List Nat → Except String Packet
  | b0 :: b1 :: b2 :: b3 :: rest =>
    match Flag.byte_to_flag_and_n b0 with
    | .error e => .error e
    | .ok (f, n) =>
      let payload_len := 256 * b2 + b3
      if rest.length < payload_len then .error ("Payload missing")
      else .ok { n := n, flag := f, checksum := b1, payload_len := payload_len,
                 buf := b0 :: b1 :: b2 :: b3 :: rest }
  | _ => .error ("Buffer too short")

/-- flipBit flips bit k of byte i of a buffer, as the fault injector in
`SecSnailSocket::udt_send` does with mask `1 << k`. -/
def flipBit (l : List Nat) (i k : Nat) : List Nat :=
  l.set i (l.getD i 0 ^^^ (1 <<< k))

/-! ## util (src/util.rs) -/

/-- Modelled from the spec: src/util.rs is absent from the sources (only
its callers are present). Per spec section 9 the alternating bit is a bool
on the wire but passed around as u8 taking only the values 0 and 1;
u8_to_bool maps 0 to false and nonzero (i.e. 1) to true. -/
def u8_to_bool (n : Nat) : Bool := n != 0

/-! ## Sender FSM (src/fsm_send/) -/

/-- next_n mirrors `next_n` of src/fsm_send/fsm.rs. -/
def next_n (n : Nat) : Nat :=
  match n with
  | 0 => 1
  | _ => 0

/-- SndEvent mirrors `SndEvent` of src/fsm_send/fsm.rs. -/
inductive SndEvent
  | InitSYN
  | Timeout
  | RecvPck (p : Option Packet)
  | DataAvailable (b : Bool)
deriving DecidableEq

/-- SndState collapses the generic-parameterised sender states
(SndStateStart, SndStateSend, SndStateWait, SndStateEnd plus the
FsmStateWrapper enum) into one tagged value, as spec section 9 suggests.
Wait owns the last sent packet and the retransmit counter. -/
inductive SndState
  | Start (n : Nat)
  | Send (n : Nat)
  | Wait (n : Nat) (rc : Nat) (sndpkt : Packet)
  | End
deriving DecidableEq

/-- BUF_READER_CAPACITY is the default capacity of std's BufReader
(8 KiB), the reader type used by SendProtocolIoContext (BufReader::new). -/
def BUF_READER_CAPACITY : Nat := 8192

/-- SndCtx models SendProtocolIoContext of src/sock.rs: the buffered file
reader — split into the bytes sitting in the BufReader's internal buffer
and the bytes of the file not yet pulled into it — the file basename
shipped in the SYN, the data counter, and whether the retransmit timer
origin is set. -/
structure SndCtx where
  bufRemaining : List Nat
  fileRemaining : List Nat
  fileName : List Nat
  dataCounter : Nat
  timerSet : Bool
deriving DecidableEq

/-- SndCtx.fill_buf models `BufReader::fill_buf`: the internal buffer is
refilled from the file ONLY when it is empty, and a refill pulls at most
the buffer capacity (8192 bytes); a non-empty buffer is returned as is. -/
def SndCtx.fill_buf (c : SndCtx) : SndCtx :=
  if c.bufRemaining.isEmpty then
    { c with bufRemaining := c.fileRemaining.take BUF_READER_CAPACITY,
             fileRemaining := c.fileRemaining.drop BUF_READER_CAPACITY }
  else c

/-- SndCtx.data_available models `data_available`
(fill_buf().len() > 0): true while unread bytes remain in the buffer or
the file. The Rust probe also performs the refill as a side effect; the
refill is replayed by the next fill_buf (it is idempotent), so only the
boolean value is kept here. -/
def SndCtx.data_available (c : SndCtx) : Bool := !(c.fill_buf).bufRemaining.isEmpty

/-- SndCtx.make_pkt models `SendProtocolIoContext::make_pkt`: a Data
packet reads up to 508 bytes via `BufReader::read` with a 508-byte
destination — fill_buf (refill only when the internal buffer is empty),
then copy min(buffered, 508) bytes, so a short chunk of
8192 - 16*508 = 64 bytes is produced at each 8 KiB window boundary even
while file data remains; a SYN carries the file basename, other kinds
carry an empty payload. -/
def SndCtx.make_pkt (c : SndCtx) (seq_n : Nat) (f : Flag) : Except String (Packet × SndCtx) :=
  match f with
  | .Data =>
    let c1 := c.fill_buf
    (Packet.new (u8_to_bool seq_n) .Data
        (c1.bufRemaining.take Packet.max_pck_payload_size)).map
      (fun pkt =>
        (pkt, { c1 with bufRemaining := c1.bufRemaining.drop Packet.max_pck_payload_size }))
  | .SYN =>
    (Packet.new (u8_to_bool seq_n) .SYN c.fileName).map (fun pkt => (pkt, c))
  | _ =>
    (Packet.new (u8_to_bool seq_n) f []).map (fun pkt => (pkt, c))

/-- sndDataRounds counts the DATA packets the sender produces for a
reader state of `buf` buffered bytes and `file` unread file bytes: the
buffered bytes drain in ceil(buf/508) chunks, and each subsequent 8 KiB
window of the file contributes sixteen 508-byte chunks plus one 64-byte
chunk (8192 = 16*508 + 64), i.e. 17 chunks per full window and
ceil(w/508) for the final partial window w = file mod 8192. -/
def sndDataRounds (buf file : Nat) : Nat :=
  (buf + 507) / 508 + 17 * (file / 8192) + (file % 8192 + 507) / 508

/-- SndRes is the outcome of one sender transition: a Rust panic
(`unreachable!`), a propagated io error, or a successor state together
with the updated context and the packets passed to `udt_send`. -/
inductive SndRes
  | trap
  | err (e : String)
  | ok (s : SndState) (c : SndCtx) (sent : List Packet)
deriving DecidableEq

/-- sndGoto is the sender transition function: the `goto` implementations
of src/fsm_send/start.rs, send.rs and wait.rs, with the match arms in
source order. The debug-only assertion in start.rs is compiled out in
release builds and is not modelled. -/
def sndGoto (maxR : Nat) : SndState → SndEvent → SndCtx → SndRes
  | .Start n, .InitSYN, c =>
    -- edge 1: make SYN (payload = file name), send, start timer
    (match c.make_pkt n .SYN with
      | .error e => .err e
      | .ok (pkt, c1) => .ok (.Wait n 0 pkt) { c1 with timerSet := true } [pkt])
  | .Start _, _, _ => .trap
  | .Send n, .DataAvailable true, c =>
    -- edge 4: read a chunk, count it, send, start timer
    (match c.make_pkt n .Data with
      | .error e => .err e
      | .ok (pkt, c1) =>
        .ok (.Wait n 0 pkt)
          { c1 with dataCounter := c1.dataCounter + pkt.payload.length, timerSet := true } [pkt])
  | .Send n, .DataAvailable false, c =>
    -- edge 5: file exhausted, send FIN, start timer
    (match c.make_pkt n .FIN with
      | .error e => .err e
      | .ok (pkt, c1) => .ok (.Wait n 0 pkt) { c1 with timerSet := true } [pkt])
  | .Send n, .RecvPck _, c =>
    -- edge 6: ignore stray packets while in Send
    .ok (.Send n) c []
  | .Send _, _, _ => .trap
  | .Wait n rc pkt, .Timeout, c =>
    if rc < maxR then
      -- edge 2a: re-send the stored packet verbatim, start timer, rc+1
      .ok (.Wait n (rc + 1) pkt) { c with timerSet := true } [pkt]
    else
      -- edge 2b: retransmit budget exhausted
      .ok .End c []
  | .Wait n rc pkt, .RecvPck (some p), c =>
    if p.notcorrupt = true ∧ p.is_ACK = true ∧ n = p.nU8 then
      -- edge 3: valid ACK, stop timer, advance sequence bit
      .ok (.Send (next_n n)) { c with timerSet := false } []
    else if p.notcorrupt = true ∧ p.is_FINACK = true ∧ n = p.nU8 ∧ c.data_available = false then
      -- edge 7: valid FINACK and no data left
      .ok .End c []
    else if p.corrupt = true ∨ (p.is_ACK = true ∧ n ≠ p.nU8) then
      -- edge 8: corrupt or wrong-sequence ACK, keep waiting
      .ok (.Wait n rc pkt) c []
    else
      -- source: unreachable!("undefined transition")
      .trap
  | .Wait n rc pkt, .RecvPck none, c =>
    -- undecodable bytes arrived, keep waiting
    .ok (.Wait n rc pkt) c []
  | .Wait _ _ _, _, _ => .trap
  | .End, _, _ => .trap

/-! ## UTF-8 validity (std str::from_utf8, used by extract_file_name) -/

/-- isCont recognises a UTF-8 continuation byte 0x80..0xBF. -/
def isCont (c : Nat) : Bool := decide (128 ≤ c ∧ c ≤ 191)

/-- isValidUtf8 models the success condition of `str::from_utf8` used by
`RecvProtocolIoContext::extract_file_name` (RFC 3629: no overlongs, no
surrogates, code points at most U+10FFFF). -/
def isValidUtf8 : List Nat → Bool
  | [] => true
  | b :: r =>
    if b ≤ 127 then isValidUtf8 r
    else if 194 ≤ b ∧ b ≤ 223 then
      match r with
      | c1 :: r1 => isCont c1 && isValidUtf8 r1
      | [] => false
    else if 224 ≤ b ∧ b ≤ 239 then
      match r with
      | c1 :: c2 :: r2 =>
        (if b = 224 then decide (160 ≤ c1 ∧ c1 ≤ 191)
         else if b = 237 then decide (128 ≤ c1 ∧ c1 ≤ 159)
         else isCont c1) && isCont c2 && isValidUtf8 r2
      | _ => false
    else if 240 ≤ b ∧ b ≤ 244 then
      match r with
      | c1 :: c2 :: c3 :: r3 =>
        (if b = 240 then decide (144 ≤ c1 ∧ c1 ≤ 191)
         else if b = 244 then decide (128 ≤ c1 ∧ c1 ≤ 143)
         else isCont c1) && isCont c2 && isCont c3 && isValidUtf8 r3
      | _ => false
    else false

/-! ## Receiver FSM (src/fsm_recv/) -/

/-- RcvEvent mirrors `RcvEvent` of src/fsm_recv/fsm.rs; the source address
is modelled as a Nat. -/
inductive RcvEvent
  | ConnectionTimeout
  | RecvPck (p : Option Packet) (src : Nat)
deriving DecidableEq

/-- RcvState collapses the receiver states of src/fsm_recv/fsm.rs;
WaitForPkt owns the last sent ACK packet. -/
inductive RcvState
  | WaitForConnection
  | WaitForPkt (sndpkt : Packet)
deriving DecidableEq

/-- RcvCtx models RecvProtocolIoContext of src/sock.rs: the latched sender
address, the open destination file (basename bytes and written contents),
the files closed so far (most recent first; the target directory), the
data counter, and whether the connection timer origin is set. -/
structure RcvCtx where
  sndAddr : Option Nat
  openFile : Option (List Nat × List Nat)
  closed : List (List Nat × List Nat)
  dataCounter : Nat
  timerSet : Bool
deriving DecidableEq

/-- RcvRes is the outcome of one receiver transition, like `SndRes`. -/
inductive RcvRes
  | trap
  | err (e : String)
  | ok (s : RcvState) (c : RcvCtx) (sent : List Packet)
deriving DecidableEq

/-- rcvGoto is the receiver transition function: the `goto`
implementations of src/fsm_recv/wait_for_connection.rs and
wait_for_pkt.rs, match arms in source order. `append` and `close_file`
unwrap the optional file writer, so they trap when no file is open. -/
def rcvGoto : RcvState → RcvEvent → RcvCtx → RcvRes
  | .WaitForConnection, .RecvPck none _, c =>
    .ok .WaitForConnection c []
  | .WaitForConnection, .RecvPck (some p) src, c =>
    if p.corrupt = true ∨ 0 ≠ p.nU8 ∨ p.is_not_SYN = true then
      -- edge 1a/b/c: not a clean SYN with n = 0, ignore
      .ok .WaitForConnection c []
    else if p.notcorrupt = true ∧ p.is_SYN = true ∧ 0 = p.nU8 then
      -- edge 2: latch sender, reset counter, open file, ACK, start timer
      if isValidUtf8 p.payload = true then
        match Packet.new (u8_to_bool p.nU8) .ACK [] with
        | .error e => .err e
        | .ok ack =>
          .ok (.WaitForPkt ack)
            { c with sndAddr := some src, dataCounter := 0,
                     openFile := some (p.payload, []), timerSet := true } [ack]
      else .err ("Invalid UTF-8 sequence")
    else if p.notcorrupt = true ∧ p.is_FIN = true then
      -- edge 13 as written in the source (shadowed by edge 1a/b/c above):
      -- append the FIN payload, FINACK it, stay
      match c.openFile with
      | none => .trap
      | some (nm, w) =>
        match Packet.new (u8_to_bool p.nU8) .FINACK [] with
        | .error e => .err e
        | .ok fa =>
          .ok .WaitForConnection { c with openFile := some (nm, w ++ p.payload) } [fa]
    else .trap
  | .WaitForConnection, .ConnectionTimeout, _ => .trap
  | .WaitForPkt last, .RecvPck none _, c =>
    .ok (.WaitForPkt last) c []
  | .WaitForPkt last, .RecvPck (some p) _, c =>
    if p.corrupt = true ∨ p.is_SYN = true then
      -- edge 8: corrupt or SYN, ignore
      .ok (.WaitForPkt last) c []
    else if p.notcorrupt = true ∧ p.nU8 = last.nU8 ∧ p.is_not_SYN = true then
      -- edge 9: duplicate of the already-acked frame: re-send last ACK
      .ok (.WaitForPkt last) { c with timerSet := true } [last]
    else if p.notcorrupt = true ∧ p.nU8 ≠ last.nU8 ∧ p.is_Data = true then
      -- edge 10: in-order DATA: append, count, ACK with p's bit
      match c.openFile with
      | none => .trap
      | some (nm, w) =>
        match Packet.new (u8_to_bool p.nU8) .ACK [] with
        | .error e => .err e
        | .ok ack =>
          .ok (.WaitForPkt ack)
            { c with openFile := some (nm, w ++ p.payload),
                     dataCounter := c.dataCounter + p.payload.length,
                     timerSet := true } [ack]
    else if p.notcorrupt = true ∧ p.nU8 ≠ last.nU8 ∧ p.is_FIN = true then
      -- edge 12: in-order FIN: FINACK, stop timer, close file
      match Packet.new (u8_to_bool p.nU8) .FINACK [] with
      | .error e => .err e
      | .ok fa =>
        match c.openFile with
        | none => .trap
        | some (nm, w) =>
          .ok .WaitForConnection
            { c with openFile := none, closed := (nm, w) :: c.closed,
                     sndAddr := none, timerSet := false } [fa]
    else .trap
  | .WaitForPkt _, .ConnectionTimeout, c =>
    -- edge 11: inactivity: close file, back to listening
    match c.openFile with
    | none => .trap
    | some (nm, w) =>
      .ok .WaitForConnection
        { c with openFile := none, closed := (nm, w) :: c.closed, sndAddr := none } []

/-! ## Socket receive path (src/sock.rs, rdt_recv) -/

/-- rdtRecvBuf models the buffer handed to `Packet::decode` by
`SecSnailSocket::rdt_recv`: a fixed 512-byte zero-initialised vector whose
prefix is overwritten with the datagram; the received length is ignored. -/
def rdtRecvBuf (dgram : List Nat) : List Nat :=
  dgram.take MAX_PAYLOAD_SIZE ++ List.replicate (MAX_PAYLOAD_SIZE - dgram.length) 0

/-! ## Ideal-channel composition of the two driver loops
(src/fsm_send/driver.rs and src/fsm_recv/driver.rs)

With p_loss = p_error = p_dup = 0, `udt_send` delivers every datagram
unchanged, so each packet the sender sends reaches the receiver before the
sender's timer can fire, and the receiver's reply is the next event of the
sender's Wait state. The composition below runs the two driver loops in
that lock-step schedule: one system step performs the sender's next
transition (events computed exactly as in
`get_next_event_for_current_state`) and, when the sender sent a packet,
delivers it to the receiver and stores the receiver's reply in `inbox`.
The single sender address is the constant 0, matching the address
filtering of `wait_for_incoming_or_timeout`. -/

/-- Sys is the combined state of the ideal-channel run, plus bookkeeping
read off the run: round-trip counts per sender frame kind, whether every
Wait state processed its event with retransmit counter 0, and a failure
flag recording a trapped or erroring transition. -/
structure Sys where
  snd : SndState
  sctx : SndCtx
  maxR : Nat
  rcv : RcvState
  rctx : RcvCtx
  inbox : Option Packet
  synRT : Nat
  dataRT : Nat
  finRT : Nat
  rcOk : Bool
  failed : Bool
deriving DecidableEq

/-- deliver hands a sender packet to the receiver FSM (event source
`wait_for_pck_no_timeout` or `wait_for_ack_or_timeout` of the receiver
driver) and stores the receiver's reply, counting the round trip by the
sender frame's kind. -/
def deliver (s : Sys) (p : Packet) : Sys :=
  let s1 :=
    match p.flag with
    | .SYN => { s with synRT := s.synRT + 1 }
    | .Data => { s with dataRT := s.dataRT + 1 }
    | .FIN => { s with finRT := s.finRT + 1 }
    | _ => s
  match rcvGoto s1.rcv (.RecvPck (some p) 0) s1.rctx with
  | .trap => { s1 with failed := true }
  | .err _ => { s1 with failed := true }
  | .ok r rc sent => { s1 with rcv := r, rctx := rc, inbox := sent.head? }

/-- sndPhase performs the sender transition for a computed event and, when
a packet was sent, delivers it. -/
def sndPhase (s : Sys) (st : SndState) (ev : SndEvent) (rcOk1 : Bool) : Sys :=
  match sndGoto s.maxR st ev s.sctx with
  | .trap => { s with failed := true, rcOk := rcOk1 }
  | .err _ => { s with failed := true, rcOk := rcOk1 }
  | .ok snd1 sctx1 sent =>
    let s1 := { s with snd := snd1, sctx := sctx1, inbox := none, rcOk := rcOk1 }
    match sent with
    | [] => s1
    | [p] => deliver s1 p
    | _ => { s1 with failed := true }

/-- sysStep runs one iteration of the sender driver loop against the
receiver driver under the ideal channel. Events follow
`get_next_event_for_current_state` of src/fsm_send/driver.rs: Start gets
InitSYN, Send probes `data_available`, Wait receives the pending reply (or
a Timeout if none is pending). -/
def sysStep (s : Sys) : Sys :=
  if s.failed then s
  else
    match s.snd with
    | .End => s
    | .Start n => sndPhase s (.Start n) .InitSYN s.rcOk
    | .Send n => sndPhase s (.Send n) (.DataAvailable s.sctx.data_available) s.rcOk
    | .Wait n rc pkt =>
      let ev : SndEvent :=
        match s.inbox with
        | some p => .RecvPck (some p)
        | none => .Timeout
      sndPhase s (.Wait n rc pkt) ev (s.rcOk && (rc == 0))

/-- runSystem iterates `sysStep`. -/
def runSystem : Nat → Sys → Sys
  | 0, s => s
  | n + 1, s => runSystem n (sysStep s)

/-- initSys is the initial combined state: sender FSM at Start(0) as built
by `SndFsm::init`, fresh send context for the given file contents and
basename, receiver at WaitForConnection with a fresh receive context. -/
def initSys (file fname : List Nat) (maxR : Nat) : Sys :=
  { snd := .Start 0,
    sctx := { bufRemaining := [], fileRemaining := file, fileName := fname,
              dataCounter := 0, timerSet := false },
    maxR := maxR,
    rcv := .WaitForConnection,
    rctx := { sndAddr := none, openFile := none, closed := [], dataCounter := 0,
              timerSet := false },
    inbox := none,
    synRT := 0, dataRT := 0, finRT := 0,
    rcOk := true, failed := false }

/-! # Theorems -/

/-! ## CRC facts -/

theorem crcStep_lt (c : Nat) : crcStep c < 256 :=
  Nat.mod_lt _ (by decide)

set_option maxRecDepth 4000 in
theorem crcUnstep_crcStep : ∀ c : Fin 256, crcUnstep (crcStep c.val) = c.val := by decide

theorem crcStep_inj {a b : Nat} (ha : a < 256) (hb : b < 256)
    (h : crcStep a = crcStep b) : a = b := by
  have h1 := crcUnstep_crcStep ⟨a, ha⟩
  have h2 := crcUnstep_crcStep ⟨b, hb⟩
  simp only at h1 h2
  rw [← h1, ← h2, h]

theorem crcStep8_lt (c : Nat) : crcStep8 c < 256 := crcStep_lt _

theorem crcStep8_inj {a b : Nat} (ha : a < 256) (hb : b < 256)
    (h : crcStep8 a = crcStep8 b) : a = b := by
  unfold crcStep8 at h
  have l := crcStep_lt
  exact crcStep_inj ha hb (crcStep_inj (l _) (l _) (crcStep_inj (l _) (l _)
    (crcStep_inj (l _) (l _) (crcStep_inj (l _) (l _) (crcStep_inj (l _) (l _)
    (crcStep_inj (l _) (l _) (crcStep_inj (l _) (l _) h)))))))

theorem xor_lt_256 {a b : Nat} (ha : a < 256) (hb : b < 256) : a ^^^ b < 256 := by
  have : a ^^^ b < 2 ^ 8 := Nat.xor_lt_two_pow (by omega) (by omega)
  omega

theorem crcByte_lt (c b : Nat) : crcByte c b < 256 := crcStep8_lt _

theorem crcByte_ne {c1 c2 m : Nat} (h1 : c1 < 256) (h2 : c2 < 256) (hm : m < 256)
    (hne : c1 ≠ c2) : crcByte c1 m ≠ crcByte c2 m := by
  intro h
  apply hne
  unfold crcByte at h
  rw [Nat.mod_eq_of_lt (xor_lt_256 h1 hm), Nat.mod_eq_of_lt (xor_lt_256 h2 hm)] at h
  have := crcStep8_inj (xor_lt_256 h1 hm) (xor_lt_256 h2 hm) h
  have := congrArg (fun x => x ^^^ m) this
  simpa [Nat.xor_assoc] using this

theorem crcFold_ne {suf : List Nat} (hs : ∀ x ∈ suf, x < 256) :
    ∀ {c1 c2 : Nat}, c1 < 256 → c2 < 256 → c1 ≠ c2 →
    crcFold c1 suf ≠ crcFold c2 suf := by
  induction suf with
  | nil => intro c1 c2 _ _ hne; simpa [crcFold] using hne
  | cons m t ih =>
    intro c1 c2 h1 h2 hne
    have hm : m < 256 := hs m (by simp)
    have ht : ∀ x ∈ t, x < 256 := fun x hx => hs x (by simp [hx])
    have := ih ht (crcByte_lt c1 m) (crcByte_lt c2 m) (crcByte_ne h1 h2 hm hne)
    simpa [crcFold] using this

theorem crcDigest_ne_of_single_diff (pre suf : List Nat) {a b : Nat}
    (hsuf : ∀ x ∈ suf, x < 256) (ha : a < 256) (hb : b < 256) (hab : a ≠ b) :
    crcDigest (pre ++ a :: suf) ≠ crcDigest (pre ++ b :: suf) := by
  have hlt : crcFold 0 pre < 256 ∨ crcFold 0 pre = 0 := by
    cases pre with
    | nil => right; rfl
    | cons x t =>
      left
      have : ∀ (c : Nat) (l : List Nat) (hc : c < 256), crcFold c l < 256 := by
        intro c l
        induction l generalizing c with
        | nil => intro hc; simpa [crcFold]
        | cons y t2 ih => intro _; exact ih _ (crcByte_lt c y)
      exact this _ t (crcByte_lt 0 x)
  have hp : crcFold 0 pre < 256 := by
    rcases hlt with h | h
    · exact h
    · omega
  intro h
  unfold crcDigest at h
  have h2 : crcFold 0 (pre ++ a :: suf) = crcFold 0 (pre ++ b :: suf) := by
    have := congrArg (fun x => x ^^^ 85) h
    simpa [Nat.xor_assoc] using this
  simp only [crcFold, List.foldl_append] at h2
  have hma : crcByte (crcFold 0 pre) a ≠ crcByte (crcFold 0 pre) b := by
    intro hcb
    apply hab
    unfold crcByte at hcb
    rw [Nat.mod_eq_of_lt (xor_lt_256 hp ha), Nat.mod_eq_of_lt (xor_lt_256 hp hb)] at hcb
    have := crcStep8_inj (xor_lt_256 hp ha) (xor_lt_256 hp hb) hcb
    have := congrArg (fun x => crcFold 0 pre ^^^ x) this
    simpa [← Nat.xor_assoc] using this
  exact crcFold_ne hsuf (crcByte_lt _ _) (crcByte_lt _ _) hma h2

/-! ## Flag byte facts -/

set_option maxRecDepth 4000 in
theorem parseRound_true : ∀ b : Fin 256, parseRound b.val = true := by decide

theorem to_byte_parse (f : Flag) (n : Bool) :
    Flag.byte_to_flag_and_n (f.to_byte n) = .ok (f, n) := by
  cases f <;> cases n <;> rfl

theorem to_byte_lt (f : Flag) (n : Bool) : f.to_byte n < 256 := by
  cases f <;> cases n <;> decide

theorem parse_to_byte {b : Nat} {f : Flag} {n : Bool} (hb : b < 256)
    (h : Flag.byte_to_flag_and_n b = .ok (f, n)) : f.to_byte n = b := by
  have := parseRound_true ⟨b, hb⟩
  simp only [parseRound] at this
  rw [h] at this
  simpa using this

/-! ## Packet building and codec facts -/

theorem newU_flag (n : Bool) (f : Flag) (p : List Nat) : (Packet.newU n f p).flag = f := rfl

theorem newU_n (n : Bool) (f : Flag) (p : List Nat) : (Packet.newU n f p).n = n := rfl

theorem newU_payload_len (n : Bool) (f : Flag) (p : List Nat) :
    (Packet.newU n f p).payload_len = p.length := rfl

theorem newU_payload (n : Bool) (f : Flag) (p : List Nat) :
    (Packet.newU n f p).payload = p := by
  simp [Packet.newU, Packet.payload, HEADER_LEN]

theorem newU_checksum (n : Bool) (f : Flag) (p : List Nat) :
    (Packet.newU n f p).checksum =
      Packet.calc_checksum_crc_8_i_423_1 (f.to_byte n) p.length p := rfl

theorem newU_calc_checksum (n : Bool) (f : Flag) (p : List Nat) :
    (Packet.newU n f p).calc_checksum =
      Packet.calc_checksum_crc_8_i_423_1 (f.to_byte n) p.length p := by
  rw [Packet.calc_checksum, newU_flag, newU_n, newU_payload_len, newU_payload]

theorem newU_notcorrupt (n : Bool) (f : Flag) (p : List Nat) :
    (Packet.newU n f p).notcorrupt = true := by
  rw [Packet.notcorrupt, newU_checksum, newU_calc_checksum]
  exact beq_self_eq_true _

theorem newU_corrupt (n : Bool) (f : Flag) (p : List Nat) :
    (Packet.newU n f p).corrupt = false := by
  rw [Packet.corrupt, newU_notcorrupt]
  rfl

theorem new_eq_ok {n : Bool} {f : Flag} {p : List Nat} (h : p.length ≤ 508) :
    Packet.new n f p = .ok (Packet.newU n f p) := by
  rw [Packet.new, if_neg]
  simp [Packet.max_pck_payload_size, MAX_PAYLOAD_SIZE, HEADER_LEN]
  omega

theorem decode_newU (n : Bool) (f : Flag) (p : List Nat) (h : p.length ≤ 508) :
    Packet.decode (Packet.newU n f p).buf = .ok (Packet.newU n f p) := by
  have hL : 256 * (p.length / 256 % 256) + p.length % 256 = p.length := by omega
  show Packet.decode (_ :: _ :: _ :: _ :: p) = _
  rw [Packet.decode]
  simp only [to_byte_parse, hL]
  rw [if_neg (by omega)]
  rfl

/-- C6: for every sequence bit, every kind, and every payload of length at
most 508, build succeeds, decode of the encoded buffer returns the very
same packet (all fields including the buffer), and the packet is not
corrupt. -/
theorem c6_build_roundtrip : ∀ (n : Bool) (f : Flag) (p : List Nat), p.length ≤ 508 →
    (Packet.new n f p).isOk = true ∧
    ∀ pkt, Packet.new n f p = .ok pkt →
      Packet.decode pkt.encode = .ok pkt ∧ pkt.corrupt = false := by
  intro n f p h
  rw [new_eq_ok h]
  refine ⟨rfl, ?_⟩
  intro pkt hpkt
  have : pkt = Packet.newU n f p := by
    cases hpkt
    rfl
  subst this
  exact ⟨decode_newU n f p h, newU_corrupt n f p⟩

/-- Witness for C6 at a concrete input (n = true, kind = Data, payload
[1, 2, 3]). -/
theorem c6_build_roundtrip_witness :
    (Packet.new true Flag.Data [1, 2, 3]).isOk = true ∧
    Packet.decode (Packet.newU true Flag.Data [1, 2, 3]).encode =
      .ok (Packet.newU true Flag.Data [1, 2, 3]) ∧
    (Packet.newU true Flag.Data [1, 2, 3]).corrupt = false := by
  obtain ⟨h1, h2⟩ := c6_build_roundtrip true Flag.Data [1, 2, 3] (by decide)
  exact ⟨h1, h2 _ (by decide)⟩

theorem parse_isOk_false_iff (b : Nat) :
    (Flag.byte_to_flag_and_n b).isOk = false ↔
      (b &&& 15 ≠ 0 ∨
        (b &&& 112 ≠ 16 ∧ b &&& 112 ≠ 64 ∧ b &&& 112 ≠ 32 ∧ b &&& 112 ≠ 96 ∧
          b &&& 112 ≠ 0)) := by
  have h15 : b &&& 15 ≤ 15 := Nat.and_le_right
  rw [Flag.byte_to_flag_and_n]
  by_cases h : b &&& 15 = 0
  · simp only [h]
    rw [if_neg (by omega)]
    by_cases h16 : b &&& 112 = 16
    · simp [h16, Except.isOk, Except.toBool]
    · rw [if_neg h16]
      by_cases h64 : b &&& 112 = 64
      · simp [h64, Except.isOk, Except.toBool]
      · rw [if_neg h64]
        by_cases h32 : b &&& 112 = 32
        · simp [h32, Except.isOk, Except.toBool]
        · rw [if_neg h32]
          by_cases h96 : b &&& 112 = 96
          · simp [h96, Except.isOk, Except.toBool]
          · rw [if_neg h96]
            by_cases h0 : b &&& 112 = 0
            · simp [h0, Except.isOk, Except.toBool]
            · rw [if_neg h0]
              simp [h16, h64, h32, h96, h0, Except.isOk, Except.toBool]
  · rw [if_pos (by omega)]
    simp [h, Except.isOk, Except.toBool]

/-- C8: decode rejects a byte vector exactly when it is shorter than 4
bytes, or the reserved low nibble of byte 0 is nonzero, or the kind bits
6-4 of byte 0 match none of the five known kinds, or the declared
big-endian payload length at bytes 2-3 exceeds the bytes available after
the header; and decode never checks the CRC, so it can return a corrupt
packet (witnessed by the all-zero 4-byte buffer). -/
theorem c8_decode_error_characterisation :
    (∀ b : List Nat,
      (Packet.decode b).isOk = false ↔
        (b.length < 4 ∨
          b.getD 0 0 &&& 15 ≠ 0 ∨
          (b.getD 0 0 &&& 112 ≠ 16 ∧ b.getD 0 0 &&& 112 ≠ 64 ∧
            b.getD 0 0 &&& 112 ≠ 32 ∧ b.getD 0 0 &&& 112 ≠ 96 ∧
            b.getD 0 0 &&& 112 ≠ 0) ∨
          b.length < 4 + (256 * b.getD 2 0 + b.getD 3 0))) ∧
    (Packet.decode [0, 0, 0, 0]).map Packet.corrupt = .ok true := by
  constructor
  · intro b
    match b with
    | [] => simp [Packet.decode, Except.isOk, Except.toBool]
    | [b0] => simp [Packet.decode, Except.isOk, Except.toBool]
    | [b0, b1] => simp [Packet.decode, Except.isOk, Except.toBool]
    | [b0, b1, b2] => simp [Packet.decode, Except.isOk, Except.toBool]
    | b0 :: b1 :: b2 :: b3 :: rest =>
      have hlen : ¬((b0 :: b1 :: b2 :: b3 :: rest).length < 4) := by
        simp
      rcases hp : Flag.byte_to_flag_and_n b0 with e | fn
      · have hiff := (parse_isOk_false_iff b0).mp (by rw [hp]; rfl)
        refine iff_of_true ?_ ?_
        · rw [Packet.decode]
          simp only [hp]
          rfl
        · rcases hiff with hb | hc
          · exact Or.inr (Or.inl (by simpa using hb))
          · exact Or.inr (Or.inr (Or.inl (by simpa using hc)))
      · obtain ⟨f, n⟩ := fn
        have hok : (Flag.byte_to_flag_and_n b0).isOk = true := by rw [hp]; rfl
        by_cases hpl : rest.length < 256 * b2 + b3
        · refine iff_of_true ?_ ?_
          · rw [Packet.decode]
            simp only [hp]
            rw [if_pos hpl]
            rfl
          · refine Or.inr (Or.inr (Or.inr ?_))
            simp only [List.getD_cons_succ, List.getD_cons_zero, List.length_cons]
            omega
        · refine iff_of_false ?_ ?_
          · rw [Packet.decode]
            simp only [hp]
            rw [if_neg hpl]
            simp [Except.isOk, Except.toBool]
          · intro hrhs
            rcases hrhs with h | h | h | h
            · exact hlen h
            · have : (Flag.byte_to_flag_and_n b0).isOk = false :=
                (parse_isOk_false_iff b0).mpr (Or.inl (by simpa using h))
              rw [hok] at this
              exact absurd this (by simp)
            · have : (Flag.byte_to_flag_and_n b0).isOk = false :=
                (parse_isOk_false_iff b0).mpr (Or.inr (by simpa using h))
              rw [hok] at this
              exact absurd this (by simp)
            · simp only [List.getD_cons_succ, List.getD_cons_zero, List.length_cons] at h
              omega
  · decide

/-- C9 counterexample: decode keeps the entire input buffer (the source's
shrink_to shrinks capacity, not length), so a decodable 5-byte buffer with
declared payload length 0 yields a packet whose encoding has 5 bytes, not
4 + 0. -/
theorem c9_counterexample :
    (Packet.decode [0, 0, 0, 0, 99]).map (fun p => (p.encode.length, p.payload_len)) =
      .ok (5, 0) := by decide

/-- C9 amended: packets produced by build have the canonical encoding
(flag byte, stored checksum, big-endian length, payload; exactly
4 + payload_len bytes), and for every packet returned by decode the
encoding is the original input buffer (hence encode after decode is the
identity on all decodable byte vectors, but a decoded packet's encoding
has exactly 4 + payload_len bytes only when the input had that exact
length). -/
theorem c9_encode_canonical :
    (∀ (n : Bool) (f : Flag) (p : List Nat) (pkt : Packet), Packet.new n f p = .ok pkt →
      pkt.encode = f.to_byte n :: pkt.checksum ::
        (p.length / 256 % 256) :: (p.length % 256) :: p ∧
      pkt.encode.length = 4 + pkt.payload_len) ∧
    (∀ (b : List Nat) (pkt : Packet), Packet.decode b = .ok pkt → pkt.encode = b) := by
  constructor
  · intro n f p pkt hpkt
    rw [Packet.new] at hpkt
    by_cases h : p.length > Packet.max_pck_payload_size
    · rw [if_pos h] at hpkt; exact absurd hpkt (by simp)
    · rw [if_neg h] at hpkt
      have : pkt = Packet.newU n f p := by cases hpkt; rfl
      subst this
      refine ⟨rfl, ?_⟩
      simp only [Packet.encode, Packet.newU, List.length_cons]
      omega
  · intro b pkt hpkt
    match b with
    | [] => exact absurd hpkt (by simp [Packet.decode])
    | [b0] => exact absurd hpkt (by simp [Packet.decode])
    | [b0, b1] => exact absurd hpkt (by simp [Packet.decode])
    | [b0, b1, b2] => exact absurd hpkt (by simp [Packet.decode])
    | b0 :: b1 :: b2 :: b3 :: rest =>
      rw [Packet.decode] at hpkt
      rcases hp : Flag.byte_to_flag_and_n b0 with e | fn
      · rw [hp] at hpkt; exact absurd hpkt (by simp)
      · obtain ⟨f, n⟩ := fn
        simp only [hp] at hpkt
        by_cases hpl : rest.length < 256 * b2 + b3
        · rw [if_pos hpl] at hpkt; exact absurd hpkt (by simp)
        · rw [if_neg hpl] at hpkt
          cases hpkt
          rfl

/-- Witness for C9 amended at concrete inputs: a built packet's encoding
is canonical, and encode after decode returns the decoded buffer. -/
theorem c9_encode_canonical_witness :
    (Packet.newU false Flag.SYN [97]).encode =
      Flag.to_byte Flag.SYN false :: (Packet.newU false Flag.SYN [97]).checksum ::
        ((1 : Nat) / 256 % 256) :: ((1 : Nat) % 256) :: [97] ∧
    (Packet.newU false Flag.SYN [97]).encode.length =
      4 + (Packet.newU false Flag.SYN [97]).payload_len ∧
    (Packet.decode [0, 0, 0, 0, 99]).map Packet.encode = .ok [0, 0, 0, 0, 99] := by
  obtain ⟨h1, h2⟩ := c9_encode_canonical
  obtain ⟨ha, hb⟩ := h1 false Flag.SYN [97] (Packet.newU false Flag.SYN [97]) (by decide)
  refine ⟨by simpa using ha, by simpa using hb, ?_⟩
  have hok : (Packet.decode [0, 0, 0, 0, 99]).isOk = true := by decide
  rcases hd : Packet.decode [0, 0, 0, 0, 99] with e | pkt
  · rw [hd] at hok; exact absurd hok (by simp [Except.isOk, Except.toBool])
  · simp [Except.map, h2 _ pkt hd]

theorem drop4_cons (a b c d : Nat) (l : List Nat) :
    List.drop HEADER_LEN (a :: b :: c :: d :: l) = l := rfl

theorem corrupt_of_calc_ne {pkt : Packet} (h : pkt.checksum ≠ pkt.calc_checksum) :
    pkt.corrupt = true := by
  rw [Packet.corrupt, Packet.notcorrupt, beq_eq_false_iff_ne.mpr h]
  rfl

theorem decode_cons {fb : Nat} (ck b2 b3 : Nat) (rest : List Nat) {f : Flag} {n : Bool}
    (hp : Flag.byte_to_flag_and_n fb = .ok (f, n))
    (hlen : ¬rest.length < 256 * b2 + b3) :
    Packet.decode (fb :: ck :: b2 :: b3 :: rest) =
      .ok { n := n, flag := f, checksum := ck, payload_len := 256 * b2 + b3,
            buf := fb :: ck :: b2 :: b3 :: rest } := by
  rw [Packet.decode]
  simp only [hp]
  rw [if_neg hlen]

/-- C7 counterexample: the claim fails for bit flips inside the payload
length field. Build a Data packet with sequence bit 0 and payload [7];
flipping bit 0 of byte 3 (the low length byte) shortens the declared
payload length from 1 to 0, decode succeeds, and the recomputed CRC over
the shortened message happens to equal the stored checksum, so the flipped
buffer is accepted as a non-corrupt packet. -/
theorem c7_counterexample :
    (Packet.new false Flag.Data [7]).map
      (fun pkt => (Packet.decode (flipBit pkt.buf 3 0)).map Packet.notcorrupt) =
      .ok (.ok true) := by decide

/-- C7 amended: for every packet produced by build and every single-bit
flip in its encoded buffer at a position outside the 16-bit payload-length
field (bytes 2 and 3), a successful decode of the flipped buffer always
yields a corrupt packet; equivalently, each such flip causes decode
failure or a true corrupt predicate. (Flips inside the length field can be
silently accepted, as the counterexample shows.) -/
theorem c7_bitflip_detected :
    ∀ (n : Bool) (f : Flag) (p : List Nat) (pkt : Packet),
    (∀ x ∈ p, x < 256) → Packet.new n f p = .ok pkt →
    ∀ i k, i < pkt.buf.length → k < 8 → i ≠ 2 → i ≠ 3 →
    ∀ q, Packet.decode (flipBit pkt.buf i k) = .ok q → q.corrupt = true := by
  intro n f p pkt hbytes hnew i k hi hk hi2 hi3 q hq
  rw [Packet.new] at hnew
  by_cases hlen : p.length > Packet.max_pck_payload_size
  · rw [if_pos hlen] at hnew; exact absurd hnew (by simp)
  rw [if_neg hlen] at hnew
  have hpkt : pkt = Packet.newU n f p := by cases hnew; rfl
  subst hpkt
  simp only [Packet.max_pck_payload_size, MAX_PAYLOAD_SIZE, HEADER_LEN] at hlen
  have hL508 : p.length ≤ 508 := by omega
  -- the flip mask is a nonzero byte
  have hmval : (1 : Nat) <<< k = 2 ^ k := Nat.one_shiftLeft k
  have hmlt : (1 : Nat) <<< k < 256 := by
    rw [hmval]
    have : (2 : Nat) ^ k ≤ 2 ^ 7 := Nat.pow_le_pow_right (by omega) (by omega)
    omega
  have hmne : (1 : Nat) <<< k ≠ 0 := by
    rw [hmval]
    have h2 : 0 < (2 : Nat) ^ k := Nat.pos_pow_of_pos k (by omega)
    omega
  have hxor_ne : ∀ a : Nat, a ≠ a ^^^ (1 <<< k) := by
    intro a h
    have := congrArg (fun x => x ^^^ a) h
    simp [Nat.xor_comm, ← Nat.xor_assoc] at this
    exact hmne this.symm
  have hfb_lt : f.to_byte n < 256 := to_byte_lt f n
  have hLparse : 256 * (p.length / 256 % 256) + p.length % 256 = p.length := by omega
  have hsuffix_lt : ∀ x ∈ (p.length / 256 % 256) :: (p.length % 256) :: p, x < 256 := by
    intro x hx
    simp only [List.mem_cons] at hx
    rcases hx with rfl | rfl | hx
    · exact Nat.mod_lt _ (by omega)
    · exact Nat.mod_lt _ (by omega)
    · exact hbytes x hx
  have hbuflen : (Packet.newU n f p).buf.length = 4 + p.length := by
    simp only [Packet.newU, List.length_cons]
    omega
  obtain hc0 | hc1 | hge : i = 0 ∨ i = 1 ∨ 4 ≤ i := by omega
  · -- flip in byte 0: flag/sequence byte
    subst hc0
    show q.corrupt = true
    rcases hp : Flag.byte_to_flag_and_n (f.to_byte n ^^^ 1 <<< k) with e | fn
    · -- decode fails, hypothesis is absurd
      rw [show flipBit (Packet.newU n f p).buf 0 k =
            (f.to_byte n ^^^ 1 <<< k) ::
              (Packet.newU n f p).checksum :: (p.length / 256 % 256) ::
                (p.length % 256) :: p from by simp [flipBit, Packet.newU]] at hq
      rw [Packet.decode] at hq
      simp only [hp] at hq
      exact absurd hq (by simp)
    · obtain ⟨f1, n1⟩ := fn
      rw [show flipBit (Packet.newU n f p).buf 0 k =
            (f.to_byte n ^^^ 1 <<< k) ::
              (Packet.newU n f p).checksum :: (p.length / 256 % 256) ::
                (p.length % 256) :: p from by simp [flipBit, Packet.newU]] at hq
      rw [decode_cons _ _ _ _ hp (by omega)] at hq
      have hqv := hq
      cases hqv
      have hfb1 : f1.to_byte n1 = f.to_byte n ^^^ 1 <<< k :=
        parse_to_byte (xor_lt_256 hfb_lt hmlt) hp
      have hne : Packet.calc_checksum_crc_8_i_423_1 (f.to_byte n) p.length p ≠
          Packet.calc_checksum_crc_8_i_423_1 (f.to_byte n ^^^ 1 <<< k) p.length p := by
        unfold Packet.calc_checksum_crc_8_i_423_1
        exact crcDigest_ne_of_single_diff [] _ hsuffix_lt hfb_lt
          (xor_lt_256 hfb_lt hmlt) (hxor_ne _)
      apply corrupt_of_calc_ne
      simp only [Packet.calc_checksum, Packet.payload, hfb1, drop4_cons, hLparse,
        List.take_length, newU_checksum]
      exact hne
  · -- flip in byte 1: the stored checksum byte
    subst hc1
    rw [show flipBit (Packet.newU n f p).buf 1 k =
          f.to_byte n ::
            ((Packet.newU n f p).checksum ^^^ 1 <<< k) :: (p.length / 256 % 256) ::
              (p.length % 256) :: p from by simp [flipBit, Packet.newU]] at hq
    rw [decode_cons _ _ _ _ (to_byte_parse f n) (by omega)] at hq
    cases hq
    apply corrupt_of_calc_ne
    simp only [Packet.calc_checksum, Packet.payload, drop4_cons, hLparse,
      List.take_length, newU_checksum]
    exact Ne.symm (hxor_ne (Packet.calc_checksum_crc_8_i_423_1 (f.to_byte n) p.length p))
  · -- flip in a payload byte
    obtain ⟨j, rfl⟩ : ∃ j, i = j + 4 := ⟨i - 4, by omega⟩
    have hj : j < p.length := by
      rw [hbuflen] at hi
      omega
    have hset : flipBit (Packet.newU n f p).buf (j + 4) k =
        f.to_byte n ::
          (Packet.newU n f p).checksum :: (p.length / 256 % 256) ::
            (p.length % 256) :: p.set j (p.getD j 0 ^^^ 1 <<< k) := by
      simp [flipBit, Packet.newU]
    rw [hset] at hq
    have hlenset : (p.set j (p.getD j 0 ^^^ 1 <<< k)).length = p.length := List.length_set p ..
    rw [decode_cons _ _ _ _ (to_byte_parse f n) (by omega)] at hq
    cases hq
    have hpj_lt : p.getD j 0 < 256 := by
      rw [List.getD_eq_getElem p 0 hj]
      exact hbytes _ (List.getElem_mem hj)
    have hdecomp : p = p.take j ++ p.getD j 0 :: p.drop (j + 1) := by
      conv_lhs => rw [← List.take_append_drop j p]
      rw [List.drop_eq_getElem_cons hj, List.getD_eq_getElem p 0 hj]
    have hdecomp' : p.set j (p.getD j 0 ^^^ 1 <<< k) =
        p.take j ++ (p.getD j 0 ^^^ 1 <<< k) :: p.drop (j + 1) :=
      List.set_eq_take_cons_drop _ hj
    have hdrop_lt : ∀ x ∈ p.drop (j + 1), x < 256 := by
      intro x hx
      exact hbytes x (List.drop_subset _ p hx)
    have base := crcDigest_ne_of_single_diff
      (f.to_byte n :: (p.length / 256 % 256) :: (p.length % 256) :: p.take j)
      (p.drop (j + 1)) hdrop_lt hpj_lt (xor_lt_256 hpj_lt hmlt) (hxor_ne _)
    simp only [List.cons_append] at base
    rw [← hdecomp, ← hdecomp'] at base
    apply corrupt_of_calc_ne
    simp only [Packet.calc_checksum, Packet.payload, drop4_cons, hLparse, newU_checksum]
    rw [List.take_of_length_le (Nat.le_of_eq hlenset)]
    unfold Packet.calc_checksum_crc_8_i_423_1
    exact base

/-- Witness for C7 amended: flipping bit 0 of the stored checksum byte of
a built Data packet with payload [5] decodes to a corrupt packet. -/
theorem c7_bitflip_detected_witness :
    (Packet.decode (flipBit (Packet.newU false Flag.Data [5]).buf 1 0)).map
      Packet.corrupt = .ok true := by
  have h := c7_bitflip_detected false Flag.Data [5] (Packet.newU false Flag.Data [5])
    (by decide) (by decide) 1 0 (by decide) (by decide) (by decide) (by decide)
  have hok : (Packet.decode (flipBit (Packet.newU false Flag.Data [5]).buf 1 0)).isOk
      = true := by decide
  rcases hd : Packet.decode (flipBit (Packet.newU false Flag.Data [5]).buf 1 0) with e | q2
  · rw [hd] at hok
    exact absurd hok (by simp [Except.isOk, Except.toBool])
  · simp [Except.map, h q2 hd]

/-! ## Sender and receiver FSM claims -/

theorem notcorrupt_of_corrupt_false {p : Packet} (h : p.corrupt = false) :
    p.notcorrupt = true := by
  rw [Packet.corrupt] at h
  revert h
  cases p.notcorrupt <;> simp

theorem corrupt_false_of_notcorrupt {p : Packet} (h : p.notcorrupt = true) :
    p.corrupt = false := by
  rw [Packet.corrupt, h]
  rfl

theorem notcorrupt_false_of_not {p : Packet} (h : ¬p.notcorrupt = true) :
    p.notcorrupt = false := by
  revert h
  cases p.notcorrupt <;> simp

/-- C4: in sender state Wait(N, rc, last), a Timeout with rc below the
retransmit budget re-sends the stored packet verbatim, restarts the timer,
and moves to Wait(N, rc+1, last) with the same sequence bit and stored
packet; a Timeout with rc at or above the budget moves to End without
sending. -/
theorem c4_wait_timeout :
    ∀ (maxR n rc : Nat) (pkt : Packet) (c : SndCtx),
    (rc < maxR →
      sndGoto maxR (.Wait n rc pkt) .Timeout c =
        .ok (.Wait n (rc + 1) pkt) { c with timerSet := true } [pkt]) ∧
    (maxR ≤ rc →
      sndGoto maxR (.Wait n rc pkt) .Timeout c = .ok .End c []) := by
  intro maxR n rc pkt c
  constructor
  · intro h
    simp [sndGoto, h]
  · intro h
    simp [sndGoto, Nat.not_lt.mpr h]

/-- Witness for C4 at concrete inputs (budget 1, retransmit counters 0 and
1). -/
theorem c4_wait_timeout_witness :
    sndGoto 1 (.Wait 0 0 (Packet.newU false Flag.SYN [])) .Timeout
        ⟨[], [], [], 0, false⟩ =
      .ok (.Wait 0 1 (Packet.newU false Flag.SYN []))
        ⟨[], [], [], 0, true⟩ [Packet.newU false Flag.SYN []] ∧
    sndGoto 1 (.Wait 0 1 (Packet.newU false Flag.SYN [])) .Timeout
        ⟨[], [], [], 0, false⟩ =
      .ok .End ⟨[], [], [], 0, false⟩ [] :=
  ⟨(c4_wait_timeout 1 0 0 (Packet.newU false Flag.SYN []) ⟨[], [], [], 0, false⟩).1 (by decide),
   (c4_wait_timeout 1 0 1 (Packet.newU false Flag.SYN []) ⟨[], [], [], 0, false⟩).2 (by decide)⟩

/-- C5: in receiver state WaitForPkt(last_ack), every decodable,
non-corrupt packet whose sequence bit equals last_ack's and whose kind is
not SYN makes the receiver re-send last_ack, restart the connection timer,
and stay in WaitForPkt with the same last_ack; the open file, the closed
files, and the data counter are unchanged, so no duplicate payload is ever
written. -/
theorem c5_duplicate_resend :
    ∀ (last p : Packet) (src : Nat) (c : RcvCtx),
    p.notcorrupt = true → p.nU8 = last.nU8 → p.is_SYN = false →
    rcvGoto (.WaitForPkt last) (.RecvPck (some p) src) c =
      .ok (.WaitForPkt last) { c with timerSet := true } [last] := by
  intro last p src c h1 h2 h3
  have hc : p.corrupt = false := corrupt_false_of_notcorrupt h1
  have hns : p.is_not_SYN = true := by
    rw [Packet.is_not_SYN, h3]
    rfl
  simp [rcvGoto, hc, h3, h1, h2, hns]

/-- Witness for C5: a non-corrupt Data packet with the same sequence bit
as the stored ACK is answered by re-sending that ACK while file and
counter stay unchanged. -/
theorem c5_duplicate_resend_witness :
    rcvGoto (.WaitForPkt (Packet.newU false Flag.ACK []))
        (.RecvPck (some (Packet.newU false Flag.Data [1, 2])) 7)
        ⟨some 0, some ([97], [3]), [], 9, false⟩ =
      .ok (.WaitForPkt (Packet.newU false Flag.ACK []))
        ⟨some 0, some ([97], [3]), [], 9, true⟩ [Packet.newU false Flag.ACK []] :=
  c5_duplicate_resend (Packet.newU false Flag.ACK []) (Packet.newU false Flag.Data [1, 2])
    7 ⟨some 0, some ([97], [3]), [], 9, false⟩ (by decide) (by decide) (by decide)

/-- C2: what the code actually does on a decodable, non-corrupt FIN in
WaitForConnection: the edge 1a/b/c guard (corrupt or wrong n or not-SYN)
matches every FIN because is_not_SYN is true, so the packet is ignored:
the receiver stays, sends no FINACK, and appends nothing. The edge 13 arm
that the claim describes is dead code. -/
theorem c2_fin_ignored :
    ∀ (p : Packet) (src : Nat) (c : RcvCtx),
    p.notcorrupt = true → p.is_FIN = true →
    rcvGoto .WaitForConnection (.RecvPck (some p) src) c =
      .ok .WaitForConnection c [] := by
  intro p src c h1 h2
  have hflag : p.flag = Flag.FIN := by
    rw [Packet.is_FIN] at h2
    simpa using h2
  have hns : p.is_not_SYN = true := by
    rw [Packet.is_not_SYN, Packet.is_SYN, hflag]
    rfl
  simp [rcvGoto, hns]

/-- Witness for C2's code-behaviour theorem at the concrete failing input:
a clean FIN with sequence bit 0 and payload [7] arriving in
WaitForConnection with no open file. -/
theorem c2_fin_ignored_witness :
    rcvGoto .WaitForConnection
        (.RecvPck (some (Packet.newU false Flag.FIN [7])) 3)
        ⟨none, none, [], 0, false⟩ =
      .ok .WaitForConnection ⟨none, none, [], 0, false⟩ [] :=
  c2_fin_ignored (Packet.newU false Flag.FIN [7]) 3 ⟨none, none, [], 0, false⟩
    (by decide) (by decide)

/-- C3 counterexample: a decodable, non-corrupt DATA packet delivered to
sender state Wait falls through every match arm of the transition and hits
the source's unreachable! (which panics in release builds as well), so the
transition is not total over the events the channel can deliver. -/
theorem c3_counterexample :
    sndGoto 3 (.Wait 1 0 (Packet.newU true Flag.Data [1]))
        (.RecvPck (some (Packet.newU true Flag.Data [1]))) ⟨[9], [], [97], 0, true⟩ =
      .trap := by decide

/-- C3 amended: the transition functions return a successor state or an io
error for every channel event except the deliberately undefined
combinations, which hit unreachable! (a panic in debug and release
builds): in sender Wait, exactly the non-corrupt packets that are neither
an ACK nor a FINACK with matching bit and exhausted file; in receiver
WaitForPkt (with a file open), exactly the non-corrupt non-SYN packets
with a differing sequence bit that are neither DATA nor FIN (i.e. ACK or
FINACK); receiver WaitForConnection and the sender's Timeout and
undecodable-packet events never trap. -/
theorem c3_goto_totality :
    (∀ (maxR n rc : Nat) (pkt p : Packet) (c : SndCtx),
      (sndGoto maxR (.Wait n rc pkt) (.RecvPck (some p)) c = .trap ↔
        (p.notcorrupt = true ∧ p.is_ACK = false ∧
          ¬(p.is_FINACK = true ∧ n = p.nU8 ∧ c.data_available = false)))) ∧
    (∀ (last p : Packet) (src : Nat) (c : RcvCtx), c.openFile.isSome = true →
      (rcvGoto (.WaitForPkt last) (.RecvPck (some p) src) c = .trap ↔
        (p.notcorrupt = true ∧ p.is_SYN = false ∧ p.nU8 ≠ last.nU8 ∧
          p.is_Data = false ∧ p.is_FIN = false))) ∧
    (∀ (po : Option Packet) (src : Nat) (c : RcvCtx),
      rcvGoto .WaitForConnection (.RecvPck po src) c ≠ .trap) ∧
    (∀ (maxR n rc : Nat) (pkt : Packet) (c : SndCtx),
      sndGoto maxR (.Wait n rc pkt) .Timeout c ≠ .trap ∧
      sndGoto maxR (.Wait n rc pkt) (.RecvPck none) c ≠ .trap) := by
  refine ⟨?_, ?_, ?_, ?_⟩
  · intro maxR n rc pkt p c
    by_cases h1 : p.notcorrupt = true
    · have hcf : p.corrupt = false := corrupt_false_of_notcorrupt h1
      by_cases h2 : p.is_ACK = true
      · by_cases h3 : n = p.nU8
        · simp [sndGoto, h1, h2, h3, hcf]
        · simp [sndGoto, h1, h2, h3, hcf]
      · have h2f : p.is_ACK = false := by revert h2; cases p.is_ACK <;> simp
        by_cases h4 : p.is_FINACK = true
        · by_cases h3 : n = p.nU8
          · by_cases h5 : c.data_available = false
            · simp [sndGoto, h1, h2f, h3, h4, h5, hcf]
            · simp [sndGoto, h1, h2f, h3, h4, h5, hcf]
          · simp [sndGoto, h1, h2f, h3, h4, hcf]
        · have h4f : p.is_FINACK = false := by revert h4; cases p.is_FINACK <;> simp
          simp [sndGoto, h1, h2f, h4f, hcf]
    · have h1f : p.notcorrupt = false := notcorrupt_false_of_not h1
      have hct : p.corrupt = true := by rw [Packet.corrupt, h1f]; rfl
      simp [sndGoto, h1f, hct]
  · intro last p src c hopen
    rcases ho : c.openFile with _ | nw
    · rw [ho] at hopen; simp at hopen
    · obtain ⟨nm, w⟩ := nw
      by_cases h1 : p.notcorrupt = true
      · have hcf : p.corrupt = false := corrupt_false_of_notcorrupt h1
        by_cases h2 : p.is_SYN = true
        · simp [rcvGoto, h1, h2, hcf]
        · have h2f : p.is_SYN = false := by revert h2; cases p.is_SYN <;> simp
          have hns : p.is_not_SYN = true := by rw [Packet.is_not_SYN, h2f]; rfl
          by_cases h3 : p.nU8 = last.nU8
          · simp [rcvGoto, h1, h2f, h3, hcf, hns]
          · by_cases h4 : p.is_Data = true
            · simp [rcvGoto, h1, h2f, h3, h4, hcf, hns, ho,
                new_eq_ok (n := u8_to_bool p.nU8) (f := Flag.ACK) (p := []) (by simp)]
            · have h4f : p.is_Data = false := by revert h4; cases p.is_Data <;> simp
              by_cases h5 : p.is_FIN = true
              · simp [rcvGoto, h1, h2f, h3, h4f, h5, hcf, hns, ho,
                  new_eq_ok (n := u8_to_bool p.nU8) (f := Flag.FINACK) (p := []) (by simp)]
              · have h5f : p.is_FIN = false := by revert h5; cases p.is_FIN <;> simp
                simp [rcvGoto, h1, h2f, h3, h4f, h5f, hcf, hns]
      · have h1f : p.notcorrupt = false := notcorrupt_false_of_not h1
        have hct : p.corrupt = true := by rw [Packet.corrupt, h1f]; rfl
        simp [rcvGoto, h1f, hct]
  · intro po src c
    rcases po with _ | p
    · simp [rcvGoto]
    · by_cases hg : (p.corrupt = true ∨ 0 ≠ p.nU8 ∨ p.is_not_SYN = true)
      · simp [rcvGoto, hg]
      · push_neg at hg
        obtain ⟨hc, hn0, hns⟩ := hg
        have hsyn : p.is_SYN = true := by
          rw [Packet.is_not_SYN] at hns
          revert hns
          cases p.is_SYN <;> simp
        have hnc : p.notcorrupt = true := notcorrupt_of_corrupt_false
          (by revert hc; cases p.corrupt <;> simp)
        have hnsf : p.is_not_SYN = false := by
          rw [Packet.is_not_SYN, hsyn]
          rfl
        simp only [rcvGoto]
        rw [if_neg (by
          push_neg
          exact ⟨by revert hc; cases p.corrupt <;> simp, hn0, by simp [hnsf]⟩)]
        rw [if_pos ⟨hnc, hsyn, hn0⟩]
        by_cases hu : isValidUtf8 p.payload = true
        · rw [if_pos hu]
          rw [new_eq_ok (n := u8_to_bool p.nU8) (f := Flag.ACK) (p := []) (by simp)]
          simp
        · rw [if_neg hu]
          simp
  · intro maxR n rc pkt c
    constructor
    · by_cases h : rc < maxR <;> simp [sndGoto, h]
    · simp [sndGoto]

/-- Witness for C3 amended: a non-corrupt FINACK with sequence bit 1
arriving in receiver WaitForPkt whose last ACK has bit 0, with a file
open, traps (the combination the claim lists as an event the channel can
deliver). -/
theorem c3_goto_totality_witness :
    rcvGoto (.WaitForPkt (Packet.newU false Flag.ACK []))
        (.RecvPck (some (Packet.newU true Flag.FINACK [])) 0)
        ⟨some 0, some ([97], []), [], 0, true⟩ = .trap :=
  ((c3_goto_totality.2.1 (Packet.newU false Flag.ACK [])
      (Packet.newU true Flag.FINACK []) 0
      ⟨some 0, some ([97], []), [], 0, true⟩ (by decide)).mpr
    (by decide))

/-! ## Socket receive path claim -/

theorem rdtRecvBuf_length (d : List Nat) : (rdtRecvBuf d).length = 512 := by
  simp [rdtRecvBuf, MAX_PAYLOAD_SIZE, List.length_take]
  omega

theorem four_cons_of_length (l : List Nat) (h : 4 ≤ l.length) :
    ∃ a b c2 c3 t, l = a :: b :: c2 :: c3 :: t := by
  match l with
  | a :: b :: c2 :: c3 :: t => exact ⟨a, b, c2, c3, t, rfl⟩
  | [] => simp at h
  | [_] => simp at h
  | [_, _] => simp at h
  | [_, _, _] => simp at h

theorem parse_error_strings {b : Nat} {e : String}
    (h : Flag.byte_to_flag_and_n b = .error e) :
    e = "rcvpkt violates fixed zero convention" ∨ e = "unknown flag combination" := by
  rw [Flag.byte_to_flag_and_n] at h
  by_cases h1 : 0 < b &&& 15 ∧ b &&& 15 ≤ 15
  · rw [if_pos h1] at h
    cases h
    left
    rfl
  · rw [if_neg h1] at h
    by_cases h16 : b &&& 112 = 16
    · rw [if_pos h16] at h; exact absurd h (by simp)
    · rw [if_neg h16] at h
      by_cases h64 : b &&& 112 = 64
      · rw [if_pos h64] at h; exact absurd h (by simp)
      · rw [if_neg h64] at h
        by_cases h32 : b &&& 112 = 32
        · rw [if_pos h32] at h; exact absurd h (by simp)
        · rw [if_neg h32] at h
          by_cases h96 : b &&& 112 = 96
          · rw [if_pos h96] at h; exact absurd h (by simp)
          · rw [if_neg h96] at h
            by_cases h0 : b &&& 112 = 0
            · rw [if_pos h0] at h; exact absurd h (by simp)
            · rw [if_neg h0] at h
              cases h
              right
              rfl

/-- C10: the socket receive path always hands decode a fixed 512-byte
zero-initialised buffer (the received datagram length is ignored), so for
any datagram whose declared payload length (read from the padded buffer)
is at most 508, decode's Payload-missing rejection can never fire; and a
datagram with a valid header that is shorter than 4 + declared-length
decodes successfully, with a payload consisting of the datagram's bytes
after the header padded with zero bytes up to the declared length —
detectable afterwards only by the corrupt predicate. -/
theorem c10_recv_padding :
    ∀ d : List Nat,
    (256 * (rdtRecvBuf d).getD 2 0 + (rdtRecvBuf d).getD 3 0 ≤ 508 →
      Packet.decode (rdtRecvBuf d) ≠ .error ("Payload missing")) ∧
    (∀ (f : Flag) (n : Bool) (L : Nat),
      4 ≤ d.length →
      Flag.byte_to_flag_and_n (d.getD 0 0) = .ok (f, n) →
      L = 256 * d.getD 2 0 + d.getD 3 0 → L ≤ 508 → d.length < 4 + L →
      Packet.decode (rdtRecvBuf d) =
        .ok { n := n, flag := f, checksum := d.getD 1 0, payload_len := L,
              buf := rdtRecvBuf d } ∧
      (Packet.decode (rdtRecvBuf d)).map Packet.payload =
        .ok (d.drop 4 ++ List.replicate (L - (d.length - 4)) 0)) := by
  intro d
  constructor
  · intro hdecl heq
    obtain ⟨a, b, c2, c3, t, hshape⟩ :=
      four_cons_of_length (rdtRecvBuf d) (by rw [rdtRecvBuf_length]; omega)
    rw [hshape] at hdecl heq
    simp only [List.getD_cons_succ, List.getD_cons_zero] at hdecl
    have hT : t.length = 508 := by
      have hlen := rdtRecvBuf_length d
      rw [hshape] at hlen
      simp only [List.length_cons] at hlen
      omega
    rw [Packet.decode] at heq
    rcases hp : Flag.byte_to_flag_and_n a with e | fn
    · simp only [hp] at heq
      injection heq with he
      rcases parse_error_strings hp with h | h
      · rw [h] at he
        exact absurd he (by decide)
      · rw [h] at he
        exact absurd he (by decide)
    · obtain ⟨f, n⟩ := fn
      simp only [hp] at heq
      rw [if_neg (by omega)] at heq
      exact absurd heq (by simp)
  · intro f n L h4 hparse hL hL508 hshort
    obtain ⟨a, b, c2, c3, t, hd⟩ := four_cons_of_length d h4
    subst hd
    simp only [List.getD_cons_succ, List.getD_cons_zero] at hparse hL
    simp only [List.length_cons] at hshort
    have hbuf : rdtRecvBuf (a :: b :: c2 :: c3 :: t) =
        a :: b :: c2 :: c3 ::
          (t ++ List.replicate (512 - (a :: b :: c2 :: c3 :: t).length) 0) := by
      rw [rdtRecvBuf]
      rw [List.take_of_length_le (by
        simp only [MAX_PAYLOAD_SIZE, List.length_cons]
        omega)]
      simp only [MAX_PAYLOAD_SIZE, List.cons_append]
    have hrest : ¬(t ++ List.replicate (512 - (a :: b :: c2 :: c3 :: t).length) 0).length <
        256 * c2 + c3 := by
      simp only [List.length_append, List.length_replicate, List.length_cons]
      omega
    have hdec := decode_cons b c2 c3
      (t ++ List.replicate (512 - (a :: b :: c2 :: c3 :: t).length) 0) hparse hrest
    refine ⟨?_, ?_⟩
    · rw [hbuf, hdec]
      simp only [List.getD_cons_succ, List.getD_cons_zero]
      rw [hL]
    · rw [hbuf, hdec]
      simp only [Except.map]
      simp only [Packet.payload, drop4_cons]
      rw [← hL]
      rw [List.take_append_eq_append_take]
      rw [List.take_of_length_le (by
        simp only [List.length_cons] at *
        omega)]
      rw [List.take_replicate]
      have hdrop : List.drop 4 (a :: b :: c2 :: c3 :: t) = t := rfl
      rw [hdrop]
      have hargs : min (L - t.length) (512 - (a :: b :: c2 :: c3 :: t).length) =
          L - ((a :: b :: c2 :: c3 :: t).length - 4) := by
        simp only [List.length_cons]
        omega
      rw [hargs]

/-- Witness for C10 at the concrete datagram [0, 0, 0, 2, 170]: declared
length 2, one actual payload byte; decode succeeds with the payload padded
by one zero byte. -/
theorem c10_recv_padding_witness :
    Packet.decode (rdtRecvBuf [0, 0, 0, 2, 170]) ≠ .error ("Payload missing") ∧
    Packet.decode (rdtRecvBuf [0, 0, 0, 2, 170]) =
      .ok { n := false, flag := Flag.Data, checksum := 0, payload_len := 2,
            buf := rdtRecvBuf [0, 0, 0, 2, 170] } ∧
    (Packet.decode (rdtRecvBuf [0, 0, 0, 2, 170])).map Packet.payload =
      .ok ([170] ++ List.replicate 1 0) := by
  obtain ⟨h1, h2⟩ := c10_recv_padding [0, 0, 0, 2, 170]
  have h3 := h2 Flag.Data false 2 (by decide) (by decide) (by decide) (by decide) (by decide)
  exact ⟨h1 (by decide), by simpa using h3.1, by simpa using h3.2⟩

/-! ## Ideal-channel run: helper facts -/

theorem mps_eq : Packet.max_pck_payload_size = 508 := rfl

theorem next_n_le (n : Nat) : next_n n ≤ 1 := by
  cases n <;> simp [next_n]

theorem next_n_next {n : Nat} (h : n ≤ 1) : next_n (next_n n) = n := by
  interval_cases n <;> rfl

theorem next_n_ne {n : Nat} (h : n ≤ 1) : next_n n ≠ n := by
  interval_cases n <;> decide

theorem nU8_newU_u8 {m : Nat} (f : Flag) (p : List Nat) (hm : m ≤ 1) :
    (Packet.newU (u8_to_bool m) f p).nU8 = m := by
  interval_cases m <;> rfl

theorem isSYN_newU_SYN (b : Bool) (p : List Nat) :
    (Packet.newU b Flag.SYN p).is_SYN = true := rfl

theorem isSYN_newU_Data (b : Bool) (p : List Nat) :
    (Packet.newU b Flag.Data p).is_SYN = false := rfl

theorem isSYN_newU_FIN (b : Bool) (p : List Nat) :
    (Packet.newU b Flag.FIN p).is_SYN = false := rfl

theorem isNotSYN_newU_SYN (b : Bool) (p : List Nat) :
    (Packet.newU b Flag.SYN p).is_not_SYN = false := rfl

theorem isNotSYN_newU_Data (b : Bool) (p : List Nat) :
    (Packet.newU b Flag.Data p).is_not_SYN = true := rfl

theorem isNotSYN_newU_FIN (b : Bool) (p : List Nat) :
    (Packet.newU b Flag.FIN p).is_not_SYN = true := rfl

theorem isACK_newU_ACK (b : Bool) (p : List Nat) :
    (Packet.newU b Flag.ACK p).is_ACK = true := rfl

theorem isACK_newU_FINACK (b : Bool) (p : List Nat) :
    (Packet.newU b Flag.FINACK p).is_ACK = false := rfl

theorem isFINACK_newU_FINACK (b : Bool) (p : List Nat) :
    (Packet.newU b Flag.FINACK p).is_FINACK = true := rfl

theorem isData_newU_Data (b : Bool) (p : List Nat) :
    (Packet.newU b Flag.Data p).is_Data = true := rfl

theorem isData_newU_FIN (b : Bool) (p : List Nat) :
    (Packet.newU b Flag.FIN p).is_Data = false := rfl

theorem isFIN_newU_FIN (b : Bool) (p : List Nat) :
    (Packet.newU b Flag.FIN p).is_FIN = true := rfl

theorem isFIN_newU_Data (b : Bool) (p : List Nat) :
    (Packet.newU b Flag.Data p).is_FIN = false := rfl

theorem runSystem_add_two (m : Nat) (s : Sys) :
    runSystem (m + 2) s = runSystem m (sysStep (sysStep s)) := rfl

/-- The first sndDataRounds recurrence: with at least one buffered byte,
one DATA chunk of min(buffered, 508) bytes is produced and the rest of
the buffer stays. -/
theorem sndDataRounds_buf_step {b : Nat} (f : Nat) (hb : 1 <= b) :
    sndDataRounds b f = 1 + sndDataRounds (b - 508) f := by
  simp only [sndDataRounds]
  omega

/-- The second sndDataRounds recurrence: with an empty buffer and file
bytes left, fill_buf pulls the next window of at most 8192 bytes into the
buffer. -/
theorem sndDataRounds_refill {f : Nat} (hf : 1 <= f) :
    sndDataRounds 0 f = sndDataRounds (min 8192 f) (f - 8192) := by
  simp only [sndDataRounds]
  omega

/-- sndDataRounds is zero exactly when no byte is left anywhere. -/
theorem sndDataRounds_eq_zero {b f : Nat} (h : sndDataRounds b f = 0) :
    b = 0 ∧ f = 0 := by
  simp only [sndDataRounds] at h
  omega

/-- With both the buffer and the file drained, data_available is false. -/
theorem data_available_nil (fname : List Nat) (cnt : Nat) (tS : Bool) :
    SndCtx.data_available
      { bufRemaining := [], fileRemaining := [], fileName := fname,
        dataCounter := cnt, timerSet := tS } = false := by
  simp [SndCtx.data_available, SndCtx.fill_buf]

/-- One system step in sender state Send with bytes still buffered: the
sender ships a DATA chunk of min(buffered, 508) bytes, the receiver
appends it and replies with an ACK echoing the chunk's sequence bit. The
file remainder is untouched: fill_buf refills only an empty buffer. -/
theorem sysStep_send_data
    (n : Nat) (bufR fileR fname nm w : List Nat) (cnt cr d sRT fRT maxR : Nat)
    (last : Packet) (sA : Option Nat) (closedL : List (List Nat × List Nat))
    (rcOkv tS tR : Bool)
    (hn : n ≤ 1) (hlast : last.nU8 = next_n n) (hbuf : bufR ≠ []) :
    sysStep
      { snd := .Send n,
        sctx := { bufRemaining := bufR, fileRemaining := fileR, fileName := fname,
                  dataCounter := cnt, timerSet := tS },
        maxR := maxR, rcv := .WaitForPkt last,
        rctx := { sndAddr := sA, openFile := some (nm, w), closed := closedL,
                  dataCounter := cr, timerSet := tR },
        inbox := none, synRT := sRT, dataRT := d, finRT := fRT,
        rcOk := rcOkv, failed := false } =
      { snd := .Wait n 0
          (Packet.newU (u8_to_bool n) .Data (bufR.take Packet.max_pck_payload_size)),
        sctx := { bufRemaining := bufR.drop Packet.max_pck_payload_size,
                  fileRemaining := fileR, fileName := fname,
                  dataCounter := cnt + (bufR.take Packet.max_pck_payload_size).length,
                  timerSet := true },
        maxR := maxR,
        rcv := .WaitForPkt (Packet.newU (u8_to_bool n) .ACK []),
        rctx := { sndAddr := sA,
                  openFile := some (nm, w ++ bufR.take Packet.max_pck_payload_size),
                  closed := closedL,
                  dataCounter := cr + (bufR.take Packet.max_pck_payload_size).length,
                  timerSet := true },
        inbox := some (Packet.newU (u8_to_bool n) .ACK []),
        synRT := sRT, dataRT := d + 1, finRT := fRT,
        rcOk := rcOkv, failed := false } := by
  have hda : SndCtx.data_available
      { bufRemaining := bufR, fileRemaining := fileR, fileName := fname,
        dataCounter := cnt, timerSet := tS } = true := by
    cases bufR with
    | nil => exact absurd rfl hbuf
    | cons x xs => rfl
  have hfb : SndCtx.fill_buf
      { bufRemaining := bufR, fileRemaining := fileR, fileName := fname,
        dataCounter := cnt, timerSet := tS } =
      { bufRemaining := bufR, fileRemaining := fileR, fileName := fname,
        dataCounter := cnt, timerSet := tS } := by
    cases bufR with
    | nil => exact absurd rfl hbuf
    | cons x xs => rfl
  have htake : (bufR.take Packet.max_pck_payload_size).length ≤ 508 := by
    rw [mps_eq]
    simp [List.length_take]
  have hnew := new_eq_ok (n := u8_to_bool n) (f := Flag.Data)
    (p := bufR.take Packet.max_pck_payload_size) htake
  have hack := new_eq_ok (n := u8_to_bool n) (f := Flag.ACK) (p := ([] : List Nat)) (by simp)
  have hnu : (Packet.newU (u8_to_bool n) Flag.Data
      (bufR.take Packet.max_pck_payload_size)).nU8 = n := nU8_newU_u8 _ _ hn
  have hne2 : ¬(n = last.nU8) := by
    rw [hlast]
    exact fun h => next_n_ne hn h.symm
  have hne3 : ¬(n = next_n n) := fun h => next_n_ne hn h.symm
  simp only [sysStep, sndPhase, sndGoto, deliver, rcvGoto, SndCtx.make_pkt, hda, hfb,
    hnew, hack, Except.map, newU_flag, newU_corrupt, newU_notcorrupt, newU_payload,
    isSYN_newU_Data, isNotSYN_newU_Data, isData_newU_Data, isFIN_newU_Data, hnu, hlast]
  simp [hne2, hne3, List.head?, hnew, hack, newU_corrupt, newU_notcorrupt, hnu, hlast,
    isSYN_newU_Data, isNotSYN_newU_Data, isData_newU_Data, isFIN_newU_Data, newU_flag,
    newU_payload, hfb]

/-- The matching second step: the sender in Wait consumes the ACK and
advances to Send with the toggled sequence bit. -/
theorem sysStep_wait_ack
    (n : Nat) (bufR fileR fname nm w : List Nat) (cnt cr d sRT fRT maxR : Nat)
    (sA : Option Nat) (closedL : List (List Nat × List Nat))
    (rcOkv tS tR : Bool) (pkt : Packet)
    (hn : n ≤ 1) :
    sysStep
      { snd := .Wait n 0 pkt,
        sctx := { bufRemaining := bufR, fileRemaining := fileR, fileName := fname,
                  dataCounter := cnt, timerSet := tS },
        maxR := maxR,
        rcv := .WaitForPkt (Packet.newU (u8_to_bool n) .ACK []),
        rctx := { sndAddr := sA, openFile := some (nm, w), closed := closedL,
                  dataCounter := cr, timerSet := tR },
        inbox := some (Packet.newU (u8_to_bool n) .ACK []),
        synRT := sRT, dataRT := d, finRT := fRT,
        rcOk := rcOkv, failed := false } =
      { snd := .Send (next_n n),
        sctx := { bufRemaining := bufR, fileRemaining := fileR, fileName := fname,
                  dataCounter := cnt, timerSet := false },
        maxR := maxR,
        rcv := .WaitForPkt (Packet.newU (u8_to_bool n) .ACK []),
        rctx := { sndAddr := sA, openFile := some (nm, w), closed := closedL,
                  dataCounter := cr, timerSet := tR },
        inbox := none,
        synRT := sRT, dataRT := d, finRT := fRT,
        rcOk := rcOkv, failed := false } := by
  have hnu : (Packet.newU (u8_to_bool n) Flag.ACK []).nU8 = n := nU8_newU_u8 _ _ hn
  simp only [sysStep, sndPhase, sndGoto, newU_notcorrupt, isACK_newU_ACK, hnu]
  simp

/-- One system step in sender state Send with the reader exhausted: the
sender ships FIN, the receiver FINACKs it, closes the file and returns to
WaitForConnection. -/
theorem sysStep_send_fin
    (n : Nat) (bufR fileR fname nm w : List Nat) (cnt cr d sRT fRT maxR : Nat)
    (last : Packet) (sA : Option Nat) (closedL : List (List Nat × List Nat))
    (rcOkv tS tR : Bool)
    (hn : n ≤ 1) (hlast : last.nU8 = next_n n)
    (hda : SndCtx.data_available
      { bufRemaining := bufR, fileRemaining := fileR, fileName := fname,
        dataCounter := cnt, timerSet := tS } = false) :
    sysStep
      { snd := .Send n,
        sctx := { bufRemaining := bufR, fileRemaining := fileR, fileName := fname,
                  dataCounter := cnt, timerSet := tS },
        maxR := maxR, rcv := .WaitForPkt last,
        rctx := { sndAddr := sA, openFile := some (nm, w), closed := closedL,
                  dataCounter := cr, timerSet := tR },
        inbox := none, synRT := sRT, dataRT := d, finRT := fRT,
        rcOk := rcOkv, failed := false } =
      { snd := .Wait n 0 (Packet.newU (u8_to_bool n) .FIN []),
        sctx := { bufRemaining := bufR, fileRemaining := fileR, fileName := fname,
                  dataCounter := cnt, timerSet := true },
        maxR := maxR,
        rcv := .WaitForConnection,
        rctx := { sndAddr := none, openFile := none, closed := (nm, w) :: closedL,
                  dataCounter := cr, timerSet := false },
        inbox := some (Packet.newU (u8_to_bool n) .FINACK []),
        synRT := sRT, dataRT := d, finRT := fRT + 1,
        rcOk := rcOkv, failed := false } := by
  have hfin := new_eq_ok (n := u8_to_bool n) (f := Flag.FIN) (p := ([] : List Nat)) (by simp)
  have hfa := new_eq_ok (n := u8_to_bool n) (f := Flag.FINACK) (p := ([] : List Nat)) (by simp)
  have hnu : (Packet.newU (u8_to_bool n) Flag.FIN []).nU8 = n := nU8_newU_u8 _ _ hn
  have hne2 : ¬(n = last.nU8) := by
    rw [hlast]
    exact fun h => next_n_ne hn h.symm
  have hne3 : ¬(n = next_n n) := fun h => next_n_ne hn h.symm
  simp only [sysStep, sndPhase, sndGoto, deliver, rcvGoto, SndCtx.make_pkt, hda,
    hfin, hfa, Except.map, newU_flag, newU_corrupt, newU_notcorrupt,
    isSYN_newU_FIN, isNotSYN_newU_FIN, isData_newU_FIN, isFIN_newU_FIN, hnu, hlast]
  simp [hne2, hne3, List.head?, hfin, hfa, newU_corrupt, newU_notcorrupt, hnu, hlast,
    isSYN_newU_FIN, isNotSYN_newU_FIN, isData_newU_FIN, isFIN_newU_FIN, newU_flag,
    newU_payload]

/-- The matching second step: the sender in Wait consumes the FINACK with
no data left and ends. -/
theorem sysStep_wait_finack
    (n : Nat) (bufR fileR fname : List Nat) (cnt d sRT fRT maxR : Nat) (pkt : Packet)
    (rv : RcvState) (rc : RcvCtx) (rcOkv tS : Bool)
    (hn : n ≤ 1)
    (hda : SndCtx.data_available
      { bufRemaining := bufR, fileRemaining := fileR, fileName := fname,
        dataCounter := cnt, timerSet := tS } = false) :
    sysStep
      { snd := .Wait n 0 pkt,
        sctx := { bufRemaining := bufR, fileRemaining := fileR, fileName := fname,
                  dataCounter := cnt, timerSet := tS },
        maxR := maxR, rcv := rv, rctx := rc,
        inbox := some (Packet.newU (u8_to_bool n) .FINACK []),
        synRT := sRT, dataRT := d, finRT := fRT,
        rcOk := rcOkv, failed := false } =
      { snd := .End,
        sctx := { bufRemaining := bufR, fileRemaining := fileR, fileName := fname,
                  dataCounter := cnt, timerSet := tS },
        maxR := maxR, rcv := rv, rctx := rc,
        inbox := none,
        synRT := sRT, dataRT := d, finRT := fRT,
        rcOk := rcOkv, failed := false } := by
  have hnu : (Packet.newU (u8_to_bool n) Flag.FINACK []).nU8 = n := nU8_newU_u8 _ _ hn
  simp only [sysStep, sndPhase, sndGoto, newU_notcorrupt, isACK_newU_FINACK,
    isFINACK_newU_FINACK, hda, hnu]
  simp

/-- Refaccess step: in sender state Send with an empty buffer but file
bytes left, running one system step is the same as running it after the
refill that fill_buf performs, since make_pkt and data_available both go
through the idempotent fill_buf. -/
theorem sysStep_send_refill
    (n : Nat) (fileR fname : List Nat) (cnt maxR : Nat) (tS : Bool)
    (rv : RcvState) (rc : RcvCtx) (ib : Option Packet)
    (sRT d fRT : Nat) (rcOkv : Bool)
    (hf : fileR ≠ []) :
    sysStep
      { snd := .Send n,
        sctx := { bufRemaining := [], fileRemaining := fileR, fileName := fname,
                  dataCounter := cnt, timerSet := tS },
        maxR := maxR, rcv := rv, rctx := rc,
        inbox := ib, synRT := sRT, dataRT := d, finRT := fRT,
        rcOk := rcOkv, failed := false } =
    sysStep
      { snd := .Send n,
        sctx := { bufRemaining := fileR.take BUF_READER_CAPACITY,
                  fileRemaining := fileR.drop BUF_READER_CAPACITY, fileName := fname,
                  dataCounter := cnt, timerSet := tS },
        maxR := maxR, rcv := rv, rctx := rc,
        inbox := ib, synRT := sRT, dataRT := d, finRT := fRT,
        rcOk := rcOkv, failed := false } := by
  have htk : fileR.take BUF_READER_CAPACITY ≠ [] := by
    intro hc
    rcases List.take_eq_nil_iff.mp hc with h | h
    · simp [BUF_READER_CAPACITY] at h
    · exact hf h
  have h1 : SndCtx.fill_buf
      { bufRemaining := [], fileRemaining := fileR, fileName := fname,
        dataCounter := cnt, timerSet := tS } =
      { bufRemaining := fileR.take BUF_READER_CAPACITY,
        fileRemaining := fileR.drop BUF_READER_CAPACITY, fileName := fname,
        dataCounter := cnt, timerSet := tS } := by
    simp [SndCtx.fill_buf]
  have h2 : SndCtx.fill_buf
      { bufRemaining := fileR.take BUF_READER_CAPACITY,
        fileRemaining := fileR.drop BUF_READER_CAPACITY, fileName := fname,
        dataCounter := cnt, timerSet := tS } =
      { bufRemaining := fileR.take BUF_READER_CAPACITY,
        fileRemaining := fileR.drop BUF_READER_CAPACITY, fileName := fname,
        dataCounter := cnt, timerSet := tS } := by
    simp [SndCtx.fill_buf, List.isEmpty_eq_false.mpr htk]
  have hda1 : SndCtx.data_available
      { bufRemaining := [], fileRemaining := fileR, fileName := fname,
        dataCounter := cnt, timerSet := tS } = true := by
    simp only [SndCtx.data_available, h1]
    simp [List.isEmpty_eq_false.mpr htk]
  have hda2 : SndCtx.data_available
      { bufRemaining := fileR.take BUF_READER_CAPACITY,
        fileRemaining := fileR.drop BUF_READER_CAPACITY, fileName := fname,
        dataCounter := cnt, timerSet := tS } = true := by
    simp only [SndCtx.data_available, h2]
    simp [List.isEmpty_eq_false.mpr htk]
  have htake : ((fileR.take BUF_READER_CAPACITY).take Packet.max_pck_payload_size).length
      ≤ 508 := by
    rw [mps_eq]
    simp [List.length_take]
  have hnew := new_eq_ok (n := u8_to_bool n) (f := Flag.Data)
    (p := (fileR.take BUF_READER_CAPACITY).take Packet.max_pck_payload_size) htake
  simp only [sysStep, sndPhase, sndGoto, SndCtx.make_pkt, hda1, hda2, h1, h2]
  simp [hnew, Except.map]

/-- steady_run: from sender state Send(n) facing a receiver in WaitForPkt
whose last ACK carries the opposite sequence bit, the ideal-channel run
ships the buffered bytes and the file remainder in
sndDataRounds |buf| |file| DATA round trips followed by one FIN round
trip, each in two system steps, and ends with the bytes appended and the
file closed, counters advanced by the total length, and no retransmit or
failure. -/
theorem steady_run (K : Nat) :
    ∀ (bufR fileR : List Nat), sndDataRounds bufR.length fileR.length = K →
    ∀ (n : Nat) (fname nm w : List Nat) (cnt cr d sRT fRT maxR : Nat)
      (last : Packet) (sA : Option Nat) (closedL : List (List Nat × List Nat))
      (rcOkv tS tR : Bool),
    n ≤ 1 → last.nU8 = next_n n →
    (let F := runSystem (2 * K + 2)
      { snd := .Send n,
        sctx := { bufRemaining := bufR, fileRemaining := fileR, fileName := fname,
                  dataCounter := cnt, timerSet := tS },
        maxR := maxR, rcv := .WaitForPkt last,
        rctx := { sndAddr := sA, openFile := some (nm, w), closed := closedL,
                  dataCounter := cr, timerSet := tR },
        inbox := none, synRT := sRT, dataRT := d, finRT := fRT,
        rcOk := rcOkv, failed := false }
     F.snd = .End ∧ F.failed = false ∧
     F.rctx.closed = (nm, w ++ (bufR ++ fileR)) :: closedL ∧
     F.rctx.openFile = none ∧ F.sctx.dataCounter = cnt + (bufR ++ fileR).length ∧
     F.rctx.dataCounter = cr + (bufR ++ fileR).length ∧ F.synRT = sRT ∧
     F.dataRT = d + K ∧ F.finRT = fRT + 1 ∧ F.rcOk = rcOkv) := by
  induction K with
  | zero =>
    intro bufR fileR hK n fname nm w cnt cr d sRT fRT maxR last sA closedL rcOkv tS tR hn hlast
    have hz := sndDataRounds_eq_zero hK
    have hbuf : bufR = [] := List.length_eq_zero.mp hz.1
    have hfile : fileR = [] := List.length_eq_zero.mp hz.2
    subst hbuf
    subst hfile
    dsimp only
    rw [show (2 * 0 + 2 : Nat) = 0 + 2 from rfl, runSystem_add_two]
    rw [sysStep_send_fin n [] [] fname nm w cnt cr d sRT fRT maxR last sA closedL rcOkv tS tR
      hn hlast (data_available_nil fname cnt tS)]
    rw [sysStep_wait_finack n [] [] fname cnt d sRT (fRT + 1) maxR
      (Packet.newU (u8_to_bool n) .FIN []) .WaitForConnection
      { sndAddr := none, openFile := none, closed := (nm, w) :: closedL,
        dataCounter := cr, timerSet := false } rcOkv true hn
      (data_available_nil fname cnt true)]
    refine ⟨rfl, rfl, by simp [runSystem], rfl, by simp [runSystem], by simp [runSystem],
      rfl, by simp [runSystem], rfl, rfl⟩
  | succ K ih =>
    intro bufR fileR hK n fname nm w cnt cr d sRT fRT maxR last sA closedL rcOkv tS tR hn hlast
    dsimp only
    have hfuel : 2 * (K + 1) + 2 = (2 * K + 2) + 2 := by omega
    rw [hfuel, runSystem_add_two]
    by_cases hb : bufR = []
    · subst hb
      have hf : fileR ≠ [] := by
        intro hc
        subst hc
        simp only [List.length_nil] at hK
        rw [show sndDataRounds 0 0 = 0 from rfl] at hK
        omega
      rw [sysStep_send_refill n fileR fname cnt maxR tS (.WaitForPkt last)
        { sndAddr := sA, openFile := some (nm, w), closed := closedL,
          dataCounter := cr, timerSet := tR }
        none sRT d fRT rcOkv hf]
      have htk : fileR.take BUF_READER_CAPACITY ≠ [] := by
        intro hc
        rcases List.take_eq_nil_iff.mp hc with h | h
        · simp [BUF_READER_CAPACITY] at h
        · exact hf h
      rw [sysStep_send_data n (fileR.take BUF_READER_CAPACITY)
        (fileR.drop BUF_READER_CAPACITY) fname nm w cnt cr d sRT fRT maxR last sA closedL
        rcOkv tS tR hn hlast htk]
      rw [sysStep_wait_ack n
        ((fileR.take BUF_READER_CAPACITY).drop Packet.max_pck_payload_size)
        (fileR.drop BUF_READER_CAPACITY) fname nm
        (w ++ (fileR.take BUF_READER_CAPACITY).take Packet.max_pck_payload_size)
        (cnt + ((fileR.take BUF_READER_CAPACITY).take Packet.max_pck_payload_size).length)
        (cr + ((fileR.take BUF_READER_CAPACITY).take Packet.max_pck_payload_size).length)
        (d + 1) sRT fRT maxR sA closedL rcOkv true true
        (Packet.newU (u8_to_bool n) .Data
          ((fileR.take BUF_READER_CAPACITY).take Packet.max_pck_payload_size)) hn]
      have hpos : 1 ≤ fileR.length := by
        cases fileR with
        | nil => exact absurd rfl hf
        | cons x xs => simp
      have hK2 : sndDataRounds
          ((fileR.take BUF_READER_CAPACITY).drop Packet.max_pck_payload_size).length
          (fileR.drop BUF_READER_CAPACITY).length = K := by
        simp only [List.length_drop, List.length_take, mps_eq]
        rw [show BUF_READER_CAPACITY = 8192 from rfl]
        have e1 := sndDataRounds_refill hpos
        have e2 := sndDataRounds_buf_step (b := min 8192 fileR.length)
          (fileR.length - 8192) (by omega)
        simp only [List.length_nil] at hK
        omega
      have happ := ih
        ((fileR.take BUF_READER_CAPACITY).drop Packet.max_pck_payload_size)
        (fileR.drop BUF_READER_CAPACITY) hK2 (next_n n) fname nm
        (w ++ (fileR.take BUF_READER_CAPACITY).take Packet.max_pck_payload_size)
        (cnt + ((fileR.take BUF_READER_CAPACITY).take Packet.max_pck_payload_size).length)
        (cr + ((fileR.take BUF_READER_CAPACITY).take Packet.max_pck_payload_size).length)
        (d + 1) sRT fRT maxR (Packet.newU (u8_to_bool n) .ACK []) sA closedL rcOkv false true
        (next_n_le n) (by rw [nU8_newU_u8 Flag.ACK [] hn, next_n_next hn])
      dsimp only at happ
      obtain ⟨e1, e2, e3, e4, e5, e6, e7, e8, e9, e10⟩ := happ
      have hjoin : (fileR.take BUF_READER_CAPACITY).take Packet.max_pck_payload_size ++
          ((fileR.take BUF_READER_CAPACITY).drop Packet.max_pck_payload_size ++
            fileR.drop BUF_READER_CAPACITY) = fileR := by
        rw [← List.append_assoc, List.take_append_drop, List.take_append_drop]
      have hlen : ((fileR.take BUF_READER_CAPACITY).take Packet.max_pck_payload_size).length +
          ((fileR.take BUF_READER_CAPACITY).drop Packet.max_pck_payload_size ++
            fileR.drop BUF_READER_CAPACITY).length = fileR.length := by
        rw [← List.length_append, hjoin]
      refine ⟨e1, e2, ?_, e4, ?_, ?_, e7, ?_, e9, e10⟩
      · rw [e3, List.append_assoc, hjoin, List.nil_append]
      · rw [e5, List.nil_append]
        omega
      · rw [e6, List.nil_append]
        omega
      · rw [e8]
        omega
    · rw [sysStep_send_data n bufR fileR fname nm w cnt cr d sRT fRT maxR last sA closedL
        rcOkv tS tR hn hlast hb]
      rw [sysStep_wait_ack n (bufR.drop Packet.max_pck_payload_size) fileR fname nm
        (w ++ bufR.take Packet.max_pck_payload_size)
        (cnt + (bufR.take Packet.max_pck_payload_size).length)
        (cr + (bufR.take Packet.max_pck_payload_size).length)
        (d + 1) sRT fRT maxR sA closedL rcOkv true true
        (Packet.newU (u8_to_bool n) .Data (bufR.take Packet.max_pck_payload_size)) hn]
      have hpos : 1 ≤ bufR.length := by
        cases bufR with
        | nil => exact absurd rfl hb
        | cons x xs => simp
      have hK2 : sndDataRounds (bufR.drop Packet.max_pck_payload_size).length
          fileR.length = K := by
        simp only [List.length_drop, mps_eq]
        have e2 := sndDataRounds_buf_step (b := bufR.length) fileR.length hpos
        omega
      have happ := ih (bufR.drop Packet.max_pck_payload_size) fileR hK2 (next_n n) fname nm
        (w ++ bufR.take Packet.max_pck_payload_size)
        (cnt + (bufR.take Packet.max_pck_payload_size).length)
        (cr + (bufR.take Packet.max_pck_payload_size).length)
        (d + 1) sRT fRT maxR (Packet.newU (u8_to_bool n) .ACK []) sA closedL rcOkv false true
        (next_n_le n) (by rw [nU8_newU_u8 Flag.ACK [] hn, next_n_next hn])
      dsimp only at happ
      obtain ⟨e1, e2, e3, e4, e5, e6, e7, e8, e9, e10⟩ := happ
      have hjoin : bufR.take Packet.max_pck_payload_size ++
          (bufR.drop Packet.max_pck_payload_size ++ fileR) = bufR ++ fileR := by
        rw [← List.append_assoc, List.take_append_drop]
      have hlen : (bufR.take Packet.max_pck_payload_size).length +
          (bufR.drop Packet.max_pck_payload_size ++ fileR).length =
          (bufR ++ fileR).length := by
        rw [← List.length_append, hjoin]
      refine ⟨e1, e2, ?_, e4, ?_, ?_, e7, ?_, e9, e10⟩
      · rw [e3, List.append_assoc, hjoin]
      · rw [e5]
        omega
      · rw [e6]
        omega
      · rw [e8]
        omega

/-- The opening SYN round trip: from the initial state the sender ships
SYN (payload: the file basename), the receiver latches the sender, opens
the destination file, ACKs with bit 0 and starts its timer. -/
theorem sysStep_start_syn (file fname : List Nat) (maxR : Nat)
    (hf : fname.length ≤ 508) (hu : isValidUtf8 fname = true) :
    sysStep (initSys file fname maxR) =
      { snd := .Wait 0 0 (Packet.newU (u8_to_bool 0) .SYN fname),
        sctx := { bufRemaining := [], fileRemaining := file, fileName := fname,
                  dataCounter := 0, timerSet := true },
        maxR := maxR,
        rcv := .WaitForPkt (Packet.newU (u8_to_bool 0) .ACK []),
        rctx := { sndAddr := some 0, openFile := some (fname, []), closed := [],
                  dataCounter := 0, timerSet := true },
        inbox := some (Packet.newU (u8_to_bool 0) .ACK []),
        synRT := 1, dataRT := 0, finRT := 0, rcOk := true, failed := false } := by
  have hsyn := new_eq_ok (n := u8_to_bool 0) (f := Flag.SYN) (p := fname) hf
  have hack := new_eq_ok (n := u8_to_bool 0) (f := Flag.ACK) (p := ([] : List Nat)) (by simp)
  have hnu : (Packet.newU (u8_to_bool 0) Flag.SYN fname).nU8 = 0 := rfl
  simp only [sysStep, initSys, sndPhase, sndGoto, deliver, rcvGoto, SndCtx.make_pkt,
    hsyn, hack, Except.map, newU_flag, newU_corrupt, newU_notcorrupt, newU_payload,
    isSYN_newU_SYN, isNotSYN_newU_SYN, hnu, hu]
  simp [hsyn, hack, hu, newU_payload, newU_corrupt, newU_notcorrupt,
    isSYN_newU_SYN, isNotSYN_newU_SYN, hnu, newU_flag, List.head?]

/-- C1 counterexample to the round-trip count: on a file of N = 8193
bytes the ideal-channel run performs 18 DATA round trips — the BufReader
refills only when its 8 KiB internal buffer is empty, so the first window
drains as sixteen 508-byte chunks plus one 64-byte chunk and the final
byte needs an 18th chunk — while ceil(N/508) = 17. -/
theorem c1_counterexample :
    (runSystem 40 (initSys (List.replicate 8193 0) [97] 0)).dataRT = 18 ∧
    ((List.replicate 8193 (0 : Nat)).length + 507) / 508 = 17 := by
  constructor
  · rw [show (40 : Nat) = (2 * 18 + 2) + 2 from rfl]
    rw [runSystem_add_two]
    rw [sysStep_start_syn (List.replicate 8193 0) [97] 0 (by decide) (by decide)]
    rw [sysStep_wait_ack 0 [] (List.replicate 8193 0) [97] [97] [] 0 0 0 1 0 0
      (some 0) [] true true true (Packet.newU (u8_to_bool 0) .SYN [97]) (by omega)]
    have hK : sndDataRounds ([] : List Nat).length
        (List.replicate 8193 (0 : Nat)).length = 18 := by
      simp only [List.length_nil, List.length_replicate]
      decide
    have happ := steady_run 18 [] (List.replicate 8193 0) hK (next_n 0) [97] [97] []
      0 0 0 1 0 0 (Packet.newU (u8_to_bool 0) .ACK []) (some 0) [] true false true
      (next_n_le 0) (by decide)
    dsimp only at happ
    obtain ⟨-, -, -, -, -, -, -, e8, -, -⟩ := happ
    rw [e8]
  · simp only [List.length_replicate]

/-- C1: under the ideal channel (p_loss = p_error = p_dup = 0), running
the sender driver loop against the receiver driver loop on a file of N
bytes delivers the file byte-identical to the written destination file
(recorded under the basename shipped in the SYN), with every Wait state
left at retransmit counter 0 and no failure; the sender's data counter —
the first component of run_snd_fsm_loop's return value — equals N. The
number of DATA round trips is NOT ceil(N/508): BufReader::read refills
only when the 8 KiB internal buffer is empty, so each full window yields
sixteen 508-byte chunks plus one 64-byte chunk, giving
K = 17 * (N / 8192) + ceil((N mod 8192)/508) DATA round trips
(sndDataRounds 0 N), plus one SYN and one FIN round trip. (Wall-clock
elapsed time is not modelled; the Duration is returned alongside the
counter.) Hypotheses: the basename fits a SYN payload (at most 508 bytes)
and is valid UTF-8, as any Rust String is. -/
theorem c1_ideal_transfer :
    ∀ (file fname : List Nat) (maxR : Nat),
    fname.length ≤ 508 → isValidUtf8 fname = true →
    (let K := sndDataRounds 0 file.length
     let F := runSystem (2 * K + 4) (initSys file fname maxR)
     F.snd = .End ∧ F.failed = false ∧
     F.rctx.closed = [(fname, file)] ∧ F.rctx.openFile = none ∧
     F.sctx.dataCounter = file.length ∧ F.rctx.dataCounter = file.length ∧
     F.synRT = 1 ∧ F.dataRT = K ∧ F.finRT = 1 ∧ F.rcOk = true) := by
  intro file fname maxR hf hu
  dsimp only
  have hfuel : 2 * sndDataRounds 0 file.length + 4 =
      (2 * sndDataRounds 0 file.length + 2) + 2 := by omega
  rw [hfuel, runSystem_add_two]
  rw [sysStep_start_syn file fname maxR hf hu]
  rw [sysStep_wait_ack 0 [] file fname fname [] 0 0 0 1 0 maxR (some 0) [] true true true
    (Packet.newU (u8_to_bool 0) .SYN fname) (by omega)]
  have happ := steady_run (sndDataRounds 0 file.length) [] file rfl (next_n 0) fname fname []
    0 0 0 1 0 maxR (Packet.newU (u8_to_bool 0) .ACK []) (some 0) [] true false true
    (next_n_le 0) (by decide)
  dsimp only at happ
  obtain ⟨e1, e2, e3, e4, e5, e6, e7, e8, e9, e10⟩ := happ
  exact ⟨e1, e2, by simpa using e3, e4, by simpa using e5, by simpa using e6, e7,
    by simpa using e8, e9, e10⟩

/-- Witness for C1 at a concrete input: a 3-byte file with basename
byte 97, one DATA round trip. -/
theorem c1_ideal_transfer_witness :
    (let K := sndDataRounds 0 ([1, 2, 3] : List Nat).length
     let F := runSystem (2 * K + 4) (initSys [1, 2, 3] [97] 0)
     F.snd = .End ∧ F.failed = false ∧
     F.rctx.closed = [([97], [1, 2, 3])] ∧ F.rctx.openFile = none ∧
     F.sctx.dataCounter = ([1, 2, 3] : List Nat).length ∧
     F.rctx.dataCounter = ([1, 2, 3] : List Nat).length ∧
     F.synRT = 1 ∧ F.dataRT = K ∧ F.finRT = 1 ∧ F.rcOk = true) :=
  c1_ideal_transfer [1, 2, 3] [97] 0 (by decide) (by decide)

end Snail
